import Mathlib

/-!
Shallow embedding of the `pleme-brazilian-validators` crate
(`src/cpf.rs`, `src/cnpj.rs`, `src/cep.rs`, `src/phone.rs`, `src/pix.rs`,
`src/error.rs`).

Modelling conventions:
* Rust `&str`/`String` values are `List Char`; a Lean string literal `"x".data`
  denotes the corresponding character list.
* Rust `Result<T, BrazilianValidationError>` is `Except BrazilianValidationError T`.
* Rust `u32`/`usize` arithmetic is `Nat`: every sum computed by the checksum code
  is bounded by `14 * 9 * 9`, far below any machine-integer boundary, so no
  wrap-around modelling is required.
* `str::trim` and `str::to_lowercase` are modelled on the ASCII range
  (`Char.isWhitespace`, an explicit A–Z table); every code path of the crate that
  reaches them is guarded by an ASCII-only recognizer.
* The `regex` patterns are hand-translated to deterministic matchers; each
  optional separator (`\.?`, `/?`, `-?`) sits in front of a mandatory digit
  group, so greedily consuming the separator when present is equivalent to the
  regex's backtracking search.
-/

namespace BrazilValidators

/-- Rust `str::trim`: drop whitespace from both ends. -/
def trim (s : List Char) : List Char :=
  ((s.dropWhile Char.isWhitespace).reverse.dropWhile Char.isWhitespace).reverse

/-- Rust `char`/`str::to_lowercase` restricted to the ASCII letters (codes
65–90 map to 97–122), the only characters the crate ever lowercases behind its
ASCII-only recognizers. -/
def toLowerChar (c : Char) : Char :=
  if 65 ≤ c.toNat ∧ c.toNat ≤ 90 then Char.ofNat (c.toNat + 32) else c

/-- Lowercase an entire string, Rust `str::to_lowercase`. -/
def lowerStr (s : List Char) : List Char := s.map toLowerChar

/-- The decimal digit character for a value below ten (used to build inputs for
the check-digit round-trip property; values ≥ 10 map to a non-digit). -/
def digitChar : Nat → Char
  | 0 => '0' | 1 => '1' | 2 => '2' | 3 => '3' | 4 => '4'
  | 5 => '5' | 6 => '6' | 7 => '7' | 8 => '8' | 9 => '9'
  | _ => '*'

/-- Numeric value of a digit character, Rust `char::to_digit(10)` on `'0'..='9'`. -/
def dval (c : Char) : Nat := c.toNat - 48

/-- `src/error.rs`: the error enum `BrazilianValidationError`. -/
inductive BrazilianValidationError where
  | invalidCpf (msg : List Char)
  | invalidCnpj (msg : List Char)
  | invalidCep (msg : List Char)
  | invalidPhone (msg : List Char)
  | invalidPixKey (msg : List Char)
  | invalidDocumentFormat (documentType : List Char)
  | invalidCheckDigits (documentType : List Char)
  | invalidCharacters
  | invalidLength (expected actual : Nat)
  deriving DecidableEq

/-- The shared `0-or-(11 − mod)` check-digit derivation rule (spec §4.1/§4.2). -/
def checkDigitOfSum (sum : Nat) : Nat :=
  if sum % 11 < 2 then 0 else 11 - sum % 11

namespace Cpf

/-- `src/cpf.rs` `INVALID_CPFS`: the ten all-repeated-digit sequences. -/
def INVALID_CPFS : List (List Char) :=
  ["00000000000".data, "11111111111".data, "22222222222".data,
   "33333333333".data, "44444444444".data, "55555555555".data,
   "66666666666".data, "77777777777".data, "88888888888".data,
   "99999999999".data]

/-- `src/cpf.rs` `normalize`: keep only ASCII digits. -/
def normalize (cpf : List Char) : List Char :=
  cpf.filter Char.isDigit

/-- Digit extraction `chars().filter_map(|c| c.to_digit(10))` used by
`validate_check_digits`. -/
def toDigits (s : List Char) : List Nat :=
  s.filterMap fun c => if c.isDigit then some (dval c) else none

/-- `src/cpf.rs` `validate_check_digits`: weighted modulo-11 check of both
trailing digits. -/
def validate_check_digits (cpf : List Char) : Bool :=
  let digits := toDigits cpf
  if digits.length ≠ 11 then false
  else
    let sum1 := (List.range 9).foldl (fun sum i => sum + digits.getD i 0 * (10 - i)) 0
    let check1 := if sum1 % 11 < 2 then 0 else 11 - sum1 % 11
    if check1 ≠ digits.getD 9 0 then false
    else
      let sum2 := (List.range 10).foldl (fun sum i => sum + digits.getD i 0 * (11 - i)) 0
      let check2 := if sum2 % 11 < 2 then 0 else 11 - sum2 % 11
      check2 == digits.getD 10 0

/-- `src/cpf.rs` `validate`. -/
def validate (cpf : List Char) : Except BrazilianValidationError (List Char) :=
  let cleaned := normalize cpf
  if cleaned.length ≠ 11 then
    .error (.invalidLength 11 cleaned.length)
  else if ¬ (cleaned.all Char.isDigit) then
    .error .invalidCharacters
  else if INVALID_CPFS.contains cleaned then
    .error (.invalidCpf "sequência de dígitos repetidos".data)
  else if ¬ validate_check_digits cleaned then
    .error (.invalidCheckDigits "CPF".data)
  else
    .ok cleaned

/-- `src/cpf.rs` `format`: `DDD.DDD.DDD-DD`, identity unless 11 digits. -/
def format (cpf : List Char) : List Char :=
  let cleaned := normalize cpf
  if cleaned.length = 11 then
    cleaned.take 3 ++ '.' :: (cleaned.drop 3).take 3 ++ '.' ::
      (cleaned.drop 6).take 3 ++ '-' :: (cleaned.drop 9).take 2
  else
    cpf

end Cpf

/-- Spec §4.1 first CPF check digit: weighted sum `digit[i] * (10 - i)` over
`i ∈ [0, 9)`, then the 0-or-(11−mod) rule. -/
def cpfCheck1 (ds : List Nat) : Nat :=
  checkDigitOfSum (((List.range 9).map fun i => ds.getD i 0 * (10 - i)).sum)

/-- Spec §4.1 second CPF check digit: weighted sum `digit[i] * (11 - i)` over
`i ∈ [0, 10)`, then the 0-or-(11−mod) rule. -/
def cpfCheck2 (ds : List Nat) : Nat :=
  checkDigitOfSum (((List.range 10).map fun i => ds.getD i 0 * (11 - i)).sum)

/-- Spec §4.1, stated from the specification text: normalize, demand length 11,
reject the ten all-repeated-digit sequences, reject when either weighted
modulo-11 check digit disagrees, otherwise return the normalized string. -/
def cpfSpec (s : List Char) : Except BrazilianValidationError (List Char) :=
  let n := Cpf.normalize s
  if n.length ≠ 11 then .error (.invalidLength 11 n.length)
  else if (List.range 10).any (fun d => n == List.replicate 11 (digitChar d)) then
    .error (.invalidCpf "sequência de dígitos repetidos".data)
  else
    let ds := n.map dval
    if cpfCheck1 ds ≠ ds.getD 9 0 ∨ cpfCheck2 ds ≠ ds.getD 10 0 then
      .error (.invalidCheckDigits "CPF".data)
    else .ok n

example : Cpf.validate "123.456.789-09".data = .ok "12345678909".data := by rfl
example : cpfSpec "123.456.789-09".data = .ok "12345678909".data := by rfl
example : Cpf.validate "11111111111".data
    = .error (.invalidCpf "sequência de dígitos repetidos".data) := by rfl
example : Cpf.validate "123.456.789-00".data
    = .error (.invalidCheckDigits "CPF".data) := by rfl

namespace Cnpj

/-- `src/cnpj.rs` `INVALID_CNPJS`: the ten all-repeated-digit sequences. -/
def INVALID_CNPJS : List (List Char) :=
  ["00000000000000".data, "11111111111111".data, "22222222222222".data,
   "33333333333333".data, "44444444444444".data, "55555555555555".data,
   "66666666666666".data, "77777777777777".data, "88888888888888".data,
   "99999999999999".data]

/-- `src/cnpj.rs` `normalize`: keep only ASCII digits. -/
def normalize (cnpj : List Char) : List Char :=
  cnpj.filter Char.isDigit

/-- `src/cnpj.rs` weight table for the first check digit. -/
def weights1 : List Nat := [5, 4, 3, 2, 9, 8, 7, 6, 5, 4, 3, 2]

/-- `src/cnpj.rs` weight table for the second check digit. -/
def weights2 : List Nat := [6, 5, 4, 3, 2, 9, 8, 7, 6, 5, 4, 3, 2]

/-- `src/cnpj.rs` `validate_check_digits`: weighted modulo-11 check of both
trailing digits. -/
def validate_check_digits (cnpj : List Char) : Bool :=
  let digits := Cpf.toDigits cnpj
  if digits.length ≠ 14 then false
  else
    let sum1 := (List.range 12).foldl
      (fun sum i => sum + digits.getD i 0 * weights1.getD i 0) 0
    let check1 := if sum1 % 11 < 2 then 0 else 11 - sum1 % 11
    if check1 ≠ digits.getD 12 0 then false
    else
      let sum2 := (List.range 13).foldl
        (fun sum i => sum + digits.getD i 0 * weights2.getD i 0) 0
      let check2 := if sum2 % 11 < 2 then 0 else 11 - sum2 % 11
      check2 == digits.getD 13 0

/-- `src/cnpj.rs` `validate`. -/
def validate (cnpj : List Char) : Except BrazilianValidationError (List Char) :=
  let cleaned := normalize cnpj
  if cleaned.length ≠ 14 then
    .error (.invalidLength 14 cleaned.length)
  else if ¬ (cleaned.all Char.isDigit) then
    .error .invalidCharacters
  else if INVALID_CNPJS.contains cleaned then
    .error (.invalidCnpj "sequência de dígitos repetidos".data)
  else if ¬ validate_check_digits cleaned then
    .error (.invalidCheckDigits "CNPJ".data)
  else
    .ok cleaned

/-- `src/cnpj.rs` `format`: `DD.DDD.DDD/DDDD-DD`, identity unless 14 digits. -/
def format (cnpj : List Char) : List Char :=
  let cleaned := normalize cnpj
  if cleaned.length = 14 then
    cleaned.take 2 ++ '.' :: (cleaned.drop 2).take 3 ++ '.' ::
      (cleaned.drop 5).take 3 ++ '/' :: (cleaned.drop 8).take 4 ++
      '-' :: (cleaned.drop 12).take 2
  else
    cnpj

end Cnpj

/-- Spec §4.2 first CNPJ check digit: weighted sum over `digits[0..12)` with
weights `[5,4,3,2,9,8,7,6,5,4,3,2]`, then the 0-or-(11−mod) rule. -/
def cnpjCheck1 (ds : List Nat) : Nat :=
  checkDigitOfSum (((List.range 12).map fun i => ds.getD i 0 * Cnpj.weights1.getD i 0).sum)

/-- Spec §4.2 second CNPJ check digit: weighted sum over `digits[0..13)` with
weights `[6,5,4,3,2,9,8,7,6,5,4,3,2]`, then the 0-or-(11−mod) rule. -/
def cnpjCheck2 (ds : List Nat) : Nat :=
  checkDigitOfSum (((List.range 13).map fun i => ds.getD i 0 * Cnpj.weights2.getD i 0).sum)

/-- Spec §4.2, stated from the specification text: normalize, demand length 14,
reject the ten all-repeated-digit sequences, reject when either weighted
check digit disagrees, otherwise return the normalized string. -/
def cnpjSpec (s : List Char) : Except BrazilianValidationError (List Char) :=
  let n := Cnpj.normalize s
  if n.length ≠ 14 then .error (.invalidLength 14 n.length)
  else if (List.range 10).any (fun d => n == List.replicate 14 (digitChar d)) then
    .error (.invalidCnpj "sequência de dígitos repetidos".data)
  else
    let ds := n.map dval
    if cnpjCheck1 ds ≠ ds.getD 12 0 ∨ cnpjCheck2 ds ≠ ds.getD 13 0 then
      .error (.invalidCheckDigits "CNPJ".data)
    else .ok n

example : Cnpj.validate "11.222.333/0001-81".data = .ok "11222333000181".data := by rfl
example : cnpjSpec "11.222.333/0001-81".data = .ok "11222333000181".data := by rfl
example : Cnpj.validate "11.111.111/1111-11".data
    = .error (.invalidCnpj "sequência de dígitos repetidos".data) := by rfl

namespace Cep

/-- `src/cep.rs` `normalize`: keep only ASCII digits. -/
def normalize (cep : List Char) : List Char :=
  cep.filter Char.isDigit

/-- `src/cep.rs` `validate`. -/
def validate (cep : List Char) : Except BrazilianValidationError (List Char) :=
  let cleaned := normalize cep
  if cleaned.length ≠ 8 then
    .error (.invalidLength 8 cleaned.length)
  else if ¬ (cleaned.all Char.isDigit) then
    .error .invalidCharacters
  else if cleaned = "00000000".data then
    .error (.invalidCep "CEP inválido".data)
  else
    .ok cleaned

/-- `src/cep.rs` `format`: `DDDDD-DDD`, identity unless 8 digits. -/
def format (cep : List Char) : List Char :=
  let cleaned := normalize cep
  if cleaned.length = 8 then
    cleaned.take 5 ++ '-' :: (cleaned.drop 5).take 3
  else
    cep

end Cep

example : Cep.format "12345678".data = "12345-678".data := by rfl
example : Cep.format "1234".data = "1234".data := by rfl

namespace Phone

/-- `src/phone.rs` `VALID_DDDS`: the 67 valid Brazilian area codes. -/
def VALID_DDDS : List (List Char) :=
  ["11".data, "12".data, "13".data, "14".data, "15".data, "16".data, "17".data,
   "18".data, "19".data,
   "21".data, "22".data, "24".data, "27".data, "28".data,
   "31".data, "32".data, "33".data, "34".data, "35".data, "37".data, "38".data,
   "41".data, "42".data, "43".data, "44".data, "45".data, "46".data,
   "47".data, "48".data, "49".data,
   "51".data, "53".data, "54".data, "55".data,
   "61".data, "62".data, "63".data, "64".data, "65".data, "66".data, "67".data,
   "68".data, "69".data,
   "71".data, "73".data, "74".data, "75".data, "77".data, "79".data,
   "81".data, "82".data, "83".data, "84".data, "85".data, "86".data, "87".data,
   "88".data, "89".data,
   "91".data, "92".data, "93".data, "94".data, "95".data, "96".data, "97".data,
   "98".data, "99".data]

/-- `src/phone.rs` `normalize`: keep ASCII digits and every `'+'`. -/
def normalize (phone : List Char) : List Char :=
  phone.filter fun c => c.isDigit || c == '+'

/-- The country-code strip that `validate`, `format`, `is_mobile`,
`is_landline`, `extract_ddd` and `mask` all repeat inline: drop a leading
`"+55"`, or a leading `"55"` when more than 11 characters would remain
otherwise.  Returns the `"+55 "` display prefix together with the national
number (only `format` consumes the prefix). -/
def country_split (cleaned : List Char) : List Char × List Char :=
  if ("+55".data).isPrefixOf cleaned then ("+55 ".data, cleaned.drop 3)
  else if ("55".data).isPrefixOf cleaned && decide (11 < cleaned.length) then
    ("+55 ".data, cleaned.drop 2)
  else ([], cleaned)

/-- The national-significant number left after the country-code strip. -/
def strip_country (cleaned : List Char) : List Char :=
  (country_split cleaned).2

/-- `src/phone.rs` `validate`. -/
def validate (phone : List Char) : Except BrazilianValidationError (List Char) :=
  let cleaned := normalize phone
  let without_country := strip_country cleaned
  if without_country.length < 10 ∨ 11 < without_country.length then
    .error (.invalidLength 10 without_country.length)
  else
    let ddd := without_country.take 2
    if ¬ VALID_DDDS.contains ddd then
      .error (.invalidPhone ("DDD ".data ++ ddd ++ " inválido".data))
    else if without_country.length = 11 ∧ ¬ ((without_country.drop 2).head? = some '9') then
      .error (.invalidPhone "celular deve começar com 9".data)
    else
      .ok ("+55".data ++ without_country)

/-- `src/phone.rs` `format`: `+55 ` prefix when present, `(AA) XXXXX-XXXX` for
11 national digits, `(AA) XXXX-XXXX` for 10, identity otherwise. -/
def format (phone : List Char) : List Char :=
  let cleaned := normalize phone
  let pre := (country_split cleaned).1
  let number := (country_split cleaned).2
  if number.length = 11 then
    pre ++ '(' :: number.take 2 ++ ')' :: ' ' ::
      (number.drop 2).take 5 ++ '-' :: (number.drop 7).take 4
  else if number.length = 10 then
    pre ++ '(' :: number.take 2 ++ ')' :: ' ' ::
      (number.drop 2).take 4 ++ '-' :: (number.drop 6).take 4
  else
    phone

end Phone

/-- Spec §4.4 `validate`, stated from the specification text: after normalize
and the optional country-code strip, the national number must have length 10
or 11, its two-character area code must be one of the 67 valid DDDs, and an
11-digit number must carry `'9'` in third position; success yields the number
with a `+55` prefix. -/
def phoneSpec (s : List Char) : Except BrazilianValidationError (List Char) :=
  let nat := Phone.strip_country (Phone.normalize s)
  if ¬ (nat.length = 10 ∨ nat.length = 11) then
    .error (.invalidLength 10 nat.length)
  else if ¬ (nat.take 2 ∈ Phone.VALID_DDDS) then
    .error (.invalidPhone ("DDD ".data ++ nat.take 2 ++ " inválido".data))
  else if nat.length = 11 ∧ nat.getD 2 ' ' ≠ '9' then
    .error (.invalidPhone "celular deve começar com 9".data)
  else
    .ok ('+' :: '5' :: '5' :: nat)

example : Phone.validate "+55 11 98765-4321".data = .ok "+5511987654321".data := by rfl
example : Phone.validate "11887654321".data
    = .error (.invalidPhone "celular deve começar com 9".data) := by rfl
example : phoneSpec "11887654321".data
    = .error (.invalidPhone "celular deve começar com 9".data) := by rfl
example : Phone.validate "1134567890".data = .ok "+551134567890".data := by rfl
example : Phone.format "+5511987654321".data = "+55 (11) 98765-4321".data := by rfl
example : Phone.format "1134567890".data = "(11) 3456-7890".data := by rfl

/-! Deterministic matchers for the anchored `src/pix.rs` regexes.  Every
optional separator (`\.?`, `/?`, `-?`) is immediately followed by a mandatory
digit group and no separator is a digit, so consuming a present separator is
forced and the greedy parse below is equivalent to the regex search. -/

/-- Consume exactly `n` ASCII digits (`\d{n}`), yielding the remainder. -/
def takeDigits : Nat → List Char → Option (List Char)
  | 0, l => some l
  | _ + 1, [] => none
  | n + 1, c :: l => if c.isDigit then takeDigits n l else none

/-- Consume an optional literal character (`c?`). -/
def skipChar (c : Char) : List Char → List Char
  | [] => []
  | a :: l => if a = c then l else a :: l

/-- Consume a mandatory literal character. -/
def expectChar (c : Char) : List Char → Option (List Char)
  | [] => none
  | a :: l => if a = c then some l else none

/-- Lowercase hexadecimal digit class `[0-9a-f]`. -/
def isHexLower (c : Char) : Bool :=
  c.isDigit || ('a' ≤ c && c ≤ 'f')

/-- Consume exactly `n` lowercase hex digits (`[0-9a-f]{n}`). -/
def takeHex : Nat → List Char → Option (List Char)
  | 0, l => some l
  | _ + 1, [] => none
  | n + 1, c :: l => if isHexLower c then takeHex n l else none

/-- Email local-part class `[a-zA-Z0-9._%+-]`. -/
def isLocalChar (c : Char) : Bool :=
  c.isAlpha || c.isDigit || c == '.' || c == '_' || c == '%' || c == '+' || c == '-'

/-- Email domain class `[a-zA-Z0-9.-]`. -/
def isDomainChar (c : Char) : Bool :=
  c.isAlpha || c.isDigit || c == '.' || c == '-'

/-- Match `[a-zA-Z0-9.-]+\.[a-zA-Z]{2,}$`.  The top-level-domain block is
dot-free, so any successful split must use the last `'.'`; splitting there is
therefore equivalent to the regex's search. -/
def emailDomainOk (d : List Char) : Bool :=
  let revT := d.reverse.takeWhile fun c => c ≠ '.'
  if revT.length = d.length then false
  else
    let t := revT.reverse
    let m := d.take (d.length - revT.length - 1)
    !m.isEmpty && m.all isDomainChar && decide (2 ≤ t.length) && t.all Char.isAlpha

namespace Pix

/-- `src/pix.rs` `PixKeyType`. -/
inductive PixKeyType where
  | cpf
  | cnpj
  | email
  | phone
  | random
  deriving DecidableEq

/-- `src/pix.rs` `CPF_REGEX` `^\d{3}\.?\d{3}\.?\d{3}-?\d{2}$`. -/
def is_cpf_format (s : List Char) : Bool :=
  match ((((takeDigits 3 s).map (skipChar '.')).bind (takeDigits 3)).map
      (skipChar '.') |>.bind (takeDigits 3) |>.map (skipChar '-') |>.bind
      (takeDigits 2)) with
  | some [] => true
  | _ => false

/-- `src/pix.rs` `CNPJ_REGEX` `^\d{2}\.?\d{3}\.?\d{3}/?\d{4}-?\d{2}$`. -/
def is_cnpj_format (s : List Char) : Bool :=
  match ((((takeDigits 2 s).map (skipChar '.')).bind (takeDigits 3)).map
      (skipChar '.') |>.bind (takeDigits 3) |>.map (skipChar '/') |>.bind
      (takeDigits 4) |>.map (skipChar '-') |>.bind (takeDigits 2)) with
  | some [] => true
  | _ => false

/-- `src/pix.rs` `EMAIL_REGEX` `^[a-zA-Z0-9._%+-]+@[a-zA-Z0-9.-]+\.[a-zA-Z]{2,}$`.
The local-part class excludes `'@'`, so the regex's `'@'` is the first `'@'`
of the string and the split below is the only candidate. -/
def is_email_format (s : List Char) : Bool :=
  let localPart := s.takeWhile fun c => c ≠ '@'
  match s.dropWhile (fun c => c ≠ '@') with
  | '@' :: domainPart =>
      !localPart.isEmpty && localPart.all isLocalChar && emailDomainOk domainPart
  | _ => false

/-- `src/pix.rs` `PIX_PHONE_REGEX` `^\+55\d{11}$`. -/
def is_phone_format (s : List Char) : Bool :=
  match s with
  | '+' :: '5' :: '5' :: rest => decide (rest.length = 11) && rest.all Char.isDigit
  | _ => false

/-- `src/pix.rs` `RANDOM_KEY_REGEX`
`^[0-9a-f]{8}-[0-9a-f]{4}-[0-9a-f]{4}-[0-9a-f]{4}-[0-9a-f]{12}$` on an
already-lowercased string. -/
def random_key_core (s : List Char) : Bool :=
  match ((takeHex 8 s).bind (expectChar '-') |>.bind (takeHex 4) |>.bind
      (expectChar '-') |>.bind (takeHex 4) |>.bind (expectChar '-') |>.bind
      (takeHex 4) |>.bind (expectChar '-') |>.bind (takeHex 12)) with
  | some [] => true
  | _ => false

/-- `src/pix.rs` `is_random_key_format`: lowercase first, then match the UUID
pattern. -/
def is_random_key_format (s : List Char) : Bool :=
  random_key_core (lowerStr s)

/-- `src/pix.rs` `validate`: trim, try the five recognizers in order, running
the full CPF/CNPJ validator on a tax-ID match (the Rust `?` operator). -/
def validate (key : List Char) : Except BrazilianValidationError Unit :=
  let key := trim key
  if is_cpf_format key then
    match Cpf.validate key with
    | .ok _ => .ok ()
    | .error e => .error e
  else if is_cnpj_format key then
    match Cnpj.validate key with
    | .ok _ => .ok ()
    | .error e => .error e
  else if is_email_format key then .ok ()
  else if is_phone_format key then .ok ()
  else if is_random_key_format key then .ok ()
  else .error (.invalidPixKey "formato não reconhecido".data)

/-- `src/pix.rs` `detect_type`: same recognizer chain, returning only the tag. -/
def detect_type (key : List Char) : Option PixKeyType :=
  let key := trim key
  if is_cpf_format key then some .cpf
  else if is_cnpj_format key then some .cnpj
  else if is_email_format key then some .email
  else if is_phone_format key then some .phone
  else if is_random_key_format key then some .random
  else none

/-- `src/pix.rs` `validate_with_type`: tag plus canonicalized value. -/
def validate_with_type (key : List Char) :
    Except BrazilianValidationError (PixKeyType × List Char) :=
  let key := trim key
  if is_cpf_format key then
    match Cpf.validate key with
    | .ok normalized => .ok (.cpf, normalized)
    | .error e => .error e
  else if is_cnpj_format key then
    match Cnpj.validate key with
    | .ok normalized => .ok (.cnpj, normalized)
    | .error e => .error e
  else if is_email_format key then .ok (.email, lowerStr key)
  else if is_phone_format key then .ok (.phone, key)
  else if is_random_key_format key then .ok (.random, lowerStr key)
  else .error (.invalidPixKey "formato não reconhecido".data)

/-- `src/pix.rs` `normalize`: trim, then dispatch on the detected shape. -/
def normalize (key : List Char) : List Char :=
  let key := trim key
  if is_cpf_format key then Cpf.normalize key
  else if is_cnpj_format key then Cnpj.normalize key
  else if is_email_format key then lowerStr key
  else if is_random_key_format key then lowerStr key
  else key

end Pix

example : Pix.detect_type "123.456.789-09".data = some .cpf := by rfl
example : Pix.detect_type "user@example.com".data = some .email := by rfl
example : Pix.detect_type "+5511987654321".data = some .phone := by rfl
example : Pix.detect_type "123e4567-e89b-12d3-a456-426614174000".data
    = some .random := by rfl
example : Pix.detect_type "123E4567-E89B-12D3-A456-426614174000".data
    = some .random := by rfl
example : Pix.detect_type "invalid".data = none := by rfl
example : Pix.detect_type "11222333000181".data = some .cnpj := by rfl
example : Pix.validate "111.111.111-11".data
    = .error (.invalidCpf "sequência de dígitos repetidos".data) := by rfl
example : Pix.validate "invalid@".data
    = .error (.invalidPixKey "formato não reconhecido".data) := by rfl
example : Pix.validate "test.user+tag@domain.co.uk".data = .ok () := by rfl
example : Pix.validate "not-a-uuid".data
    = .error (.invalidPixKey "formato não reconhecido".data) := by rfl
example : Pix.validate_with_type "User@Example.COM".data
    = .ok (.email, "user@example.com".data) := by rfl
example : Pix.validate_with_type "  123.456.789-09  ".data
    = .ok (.cpf, "12345678909".data) := by rfl
example : Pix.normalize "User@Example.COM".data = "user@example.com".data := by rfl
example : Pix.validate "11987654321".data
    = .error (.invalidCheckDigits "CPF".data) := by rfl

/-! Generic helper lemmas. -/

lemma foldl_add_eq_sum (f : Nat → Nat) (l : List Nat) :
    ∀ init : Nat, l.foldl (fun a i => a + f i) init = init + (l.map f).sum := by
  induction l with
  | nil => simp
  | cons x t ih =>
      intro init
      simp only [List.foldl_cons, List.map_cons, List.sum_cons, ih]
      omega

lemma toDigits_eq_map (l : List Char) (h : ∀ c ∈ l, c.isDigit = true) :
    Cpf.toDigits l = l.map dval := by
  induction l with
  | nil => rfl
  | cons c t ih =>
      have hc : c.isDigit = true := h c (by simp)
      have ht := ih fun x hx => h x (by simp [hx])
      simp only [Cpf.toDigits] at ht ⊢
      simp [List.filterMap_cons, hc, ht]

lemma mem_filter_digits_isDigit {s : List Char} {c : Char}
    (hc : c ∈ s.filter Char.isDigit) : c.isDigit = true :=
  (List.mem_filter.mp hc).2

lemma filter_digits_all (s : List Char) :
    (s.filter Char.isDigit).all Char.isDigit = true := by
  simp only [List.all_eq_true]
  exact fun c hc => mem_filter_digits_isDigit hc

lemma invalid_cpfs_eq :
    Cpf.INVALID_CPFS = (List.range 10).map fun d => List.replicate 11 (digitChar d) := by
  decide

lemma invalid_cnpjs_eq :
    Cnpj.INVALID_CNPJS = (List.range 10).map fun d => List.replicate 14 (digitChar d) := by
  decide

lemma contains_invalid_cpfs_iff (n : List Char) :
    Cpf.INVALID_CPFS.contains n = true ↔
      ((List.range 10).any fun d => n == List.replicate 11 (digitChar d)) = true := by
  rw [invalid_cpfs_eq]
  simp only [List.contains, List.elem_iff, List.mem_map, List.mem_range,
    List.any_eq_true, beq_iff_eq]
  constructor
  · rintro ⟨d, hd, h⟩; exact ⟨d, hd, h.symm⟩
  · rintro ⟨d, hd, h⟩; exact ⟨d, hd, h.symm⟩

lemma contains_invalid_cnpjs_iff (n : List Char) :
    Cnpj.INVALID_CNPJS.contains n = true ↔
      ((List.range 10).any fun d => n == List.replicate 14 (digitChar d)) = true := by
  rw [invalid_cnpjs_eq]
  simp only [List.contains, List.elem_iff, List.mem_map, List.mem_range,
    List.any_eq_true, beq_iff_eq]
  constructor
  · rintro ⟨d, hd, h⟩; exact ⟨d, hd, h.symm⟩
  · rintro ⟨d, hd, h⟩; exact ⟨d, hd, h.symm⟩

lemma cpf_check_digits_iff (n : List Char) (h11 : n.length = 11)
    (hall : ∀ c ∈ n, c.isDigit = true) :
    Cpf.validate_check_digits n = true ↔
      (cpfCheck1 (n.map dval) = (n.map dval).getD 9 0 ∧
       cpfCheck2 (n.map dval) = (n.map dval).getD 10 0) := by
  unfold Cpf.validate_check_digits
  rw [toDigits_eq_map n hall]
  have hlen : (n.map dval).length = 11 := by simp [h11]
  clear hall
  simp only [hlen, ne_eq, not_true_eq_false, if_false, foldl_add_eq_sum, Nat.zero_add]
  unfold cpfCheck1 cpfCheck2 checkDigitOfSum
  generalize (List.map (fun i => (List.map dval n).getD i 0 * (10 - i)) (List.range 9)).sum = S1
  generalize (List.map (fun i => (List.map dval n).getD i 0 * (11 - i)) (List.range 10)).sum = S2
  generalize ((List.map dval n).getD 9 0) = a
  generalize ((List.map dval n).getD 10 0) = b
  split_ifs <;> simp only [beq_iff_eq, Bool.false_eq_true, false_iff] <;> tauto

lemma cnpj_check_digits_iff (n : List Char) (h14 : n.length = 14)
    (hall : ∀ c ∈ n, c.isDigit = true) :
    Cnpj.validate_check_digits n = true ↔
      (cnpjCheck1 (n.map dval) = (n.map dval).getD 12 0 ∧
       cnpjCheck2 (n.map dval) = (n.map dval).getD 13 0) := by
  unfold Cnpj.validate_check_digits
  rw [toDigits_eq_map n hall]
  have hlen : (n.map dval).length = 14 := by simp [h14]
  clear hall
  simp only [hlen, ne_eq, not_true_eq_false, if_false, foldl_add_eq_sum, Nat.zero_add]
  unfold cnpjCheck1 cnpjCheck2 checkDigitOfSum
  generalize (List.map (fun i => (List.map dval n).getD i 0 * Cnpj.weights1.getD i 0)
    (List.range 12)).sum = S1
  generalize (List.map (fun i => (List.map dval n).getD i 0 * Cnpj.weights2.getD i 0)
    (List.range 13)).sum = S2
  generalize ((List.map dval n).getD 12 0) = a
  generalize ((List.map dval n).getD 13 0) = b
  split_ifs <;> simp only [beq_iff_eq, Bool.false_eq_true, false_iff] <;> tauto

/-- C1: CPF `validate` digit-normalizes its input and then behaves exactly as
spec §4.1 describes — `InvalidLength {expected := 11}` on a wrong normalized
length, `InvalidCpf` on the ten all-repeated-digit sequences,
`InvalidCheckDigits` when either weighted modulo-11 check digit disagrees, and
otherwise `Ok` with the normalized 11-digit string; in particular
`validate "123.456.789-09" = Ok "12345678909"`. -/
theorem cpf_validate_matches_spec (s : List Char) :
    Cpf.validate s = cpfSpec s ∧
    Cpf.validate "123.456.789-09".data = .ok "12345678909".data := by
  refine ⟨?_, rfl⟩
  have hall : (Cpf.normalize s).all Char.isDigit = true := filter_digits_all s
  have hdig : ∀ c ∈ Cpf.normalize s, c.isDigit = true :=
    fun c hc => mem_filter_digits_isDigit hc
  show Cpf.validate s = cpfSpec s
  unfold Cpf.validate cpfSpec
  simp only []
  by_cases h1 : (Cpf.normalize s).length = 11
  · have hlen : ¬ ((Cpf.normalize s).length ≠ 11) := by omega
    rw [if_neg hlen, if_neg (not_not_intro hall), if_neg hlen]
    by_cases h2 : Cpf.INVALID_CPFS.contains (Cpf.normalize s) = true
    · rw [if_pos h2, if_pos ((contains_invalid_cpfs_iff _).mp h2)]
    · rw [if_neg h2, if_neg (fun h => h2 ((contains_invalid_cpfs_iff _).mpr h))]
      by_cases h3 : Cpf.validate_check_digits (Cpf.normalize s) = true
      · obtain ⟨e1, e2⟩ := (cpf_check_digits_iff _ h1 hdig).mp h3
        rw [if_neg (not_not_intro h3), if_neg (by push_neg; exact ⟨e1, e2⟩)]
      · rw [if_pos h3, if_pos (by
          by_contra hcon
          push_neg at hcon
          exact h3 ((cpf_check_digits_iff _ h1 hdig).mpr hcon))]
  · rw [if_pos h1, if_pos h1]

/-- C2: CNPJ `validate` digit-normalizes its input and then behaves exactly as
spec §4.2 describes — `InvalidLength {expected := 14}` on a wrong normalized
length, `InvalidCnpj` on the ten all-repeated-digit sequences,
`InvalidCheckDigits` when either weighted check digit (weights
`[5,4,3,2,9,8,7,6,5,4,3,2]` and `[6,5,4,3,2,9,8,7,6,5,4,3,2]`) disagrees, and
otherwise `Ok` with the normalized 14-digit string; in particular
`validate "11.222.333/0001-81" = Ok "11222333000181"` and
`validate "11.111.111/1111-11"` is an error. -/
theorem cnpj_validate_matches_spec (s : List Char) :
    Cnpj.validate s = cnpjSpec s ∧
    Cnpj.validate "11.222.333/0001-81".data = .ok "11222333000181".data ∧
    Cnpj.validate "11.111.111/1111-11".data
      = .error (.invalidCnpj "sequência de dígitos repetidos".data) := by
  refine ⟨?_, rfl, rfl⟩
  have hall : (Cnpj.normalize s).all Char.isDigit = true := filter_digits_all s
  have hdig : ∀ c ∈ Cnpj.normalize s, c.isDigit = true :=
    fun c hc => mem_filter_digits_isDigit hc
  show Cnpj.validate s = cnpjSpec s
  unfold Cnpj.validate cnpjSpec
  simp only []
  by_cases h1 : (Cnpj.normalize s).length = 14
  · have hlen : ¬ ((Cnpj.normalize s).length ≠ 14) := by omega
    rw [if_neg hlen, if_neg (not_not_intro hall), if_neg hlen]
    by_cases h2 : Cnpj.INVALID_CNPJS.contains (Cnpj.normalize s) = true
    · rw [if_pos h2, if_pos ((contains_invalid_cnpjs_iff _).mp h2)]
    · rw [if_neg h2, if_neg (fun h => h2 ((contains_invalid_cnpjs_iff _).mpr h))]
      by_cases h3 : Cnpj.validate_check_digits (Cnpj.normalize s) = true
      · obtain ⟨e1, e2⟩ := (cnpj_check_digits_iff _ h1 hdig).mp h3
        rw [if_neg (not_not_intro h3), if_neg (by push_neg; exact ⟨e1, e2⟩)]
      · rw [if_pos h3, if_pos (by
          by_contra hcon
          push_neg at hcon
          exact h3 ((cnpj_check_digits_iff _ h1 hdig).mpr hcon))]
  · rw [if_pos h1, if_pos h1]

/-- C5: phone `validate` normalizes, strips the optional country code, and then
rejects by length (not 10/11), by area code (outside the 67 valid DDDs), and by
the mobile marker (11 digits whose third is not `'9'`), otherwise returning the
national number prefixed with `+55`, exactly as spec §4.4 describes; in
particular `validate "11887654321"` is an `InvalidPhone` error. -/
theorem phone_validate_matches_spec (s : List Char) :
    Phone.validate s = phoneSpec s ∧
    Phone.validate "11887654321".data
      = .error (.invalidPhone "celular deve começar com 9".data) := by
  refine ⟨?_, rfl⟩
  unfold Phone.validate phoneSpec
  simp only []
  set wc := Phone.strip_country (Phone.normalize s) with hwc
  by_cases h1 : wc.length = 10 ∨ wc.length = 11
  · rw [if_neg (by omega : ¬ (wc.length < 10 ∨ 11 < wc.length)),
      if_neg (not_not_intro h1)]
    by_cases h2 : Phone.VALID_DDDS.contains (wc.take 2) = true
    · have h2' : wc.take 2 ∈ Phone.VALID_DDDS := by
        simpa [List.contains, List.elem_iff] using h2
      rw [if_neg (not_not_intro h2), if_neg (not_not_intro h2')]
      have hcond : (wc.length = 11 ∧ ¬ ((wc.drop 2).head? = some '9')) ↔
          (wc.length = 11 ∧ wc.getD 2 ' ' ≠ '9') := by
        constructor
        · rintro ⟨hl, hn⟩
          refine ⟨hl, fun he => hn ?_⟩
          rw [List.head?_drop, (List.getElem?_eq_some_getElem_iff wc 2 (by omega)).mpr trivial]
          rw [List.getD_eq_getElem?_getD,
            (List.getElem?_eq_some_getElem_iff wc 2 (by omega)).mpr trivial] at he
          simpa using he
        · rintro ⟨hl, hn⟩
          refine ⟨hl, fun he => hn ?_⟩
          rw [List.head?_drop, (List.getElem?_eq_some_getElem_iff wc 2 (by omega)).mpr trivial] at he
          rw [List.getD_eq_getElem?_getD,
            (List.getElem?_eq_some_getElem_iff wc 2 (by omega)).mpr trivial]
          simpa using he
      by_cases h3 : wc.length = 11 ∧ ¬ ((wc.drop 2).head? = some '9')
      · rw [if_pos h3, if_pos (hcond.mp h3)]
      · rw [if_neg h3, if_neg (fun h => h3 (hcond.mpr h))]
        rfl
    · have h2' : ¬ (wc.take 2 ∈ Phone.VALID_DDDS) := by
        intro h
        exact h2 (by simpa [List.contains, List.elem_iff] using h)
      rw [if_pos h2, if_pos h2']
  · rw [if_pos (by omega : wc.length < 10 ∨ 11 < wc.length), if_pos h1]

/-- C3: the three PIX entry points share one fixed short-circuit recognizer
order — CPF shape, CNPJ shape, email shape, PIX-phone shape, random-key
shape.  `detect_type` returns exactly the first structural match (so at most
one type is ever assigned), and `validate` / `validate_with_type` dispatch on
that same first match — running the full CPF/CNPJ validator for tax-ID shapes
and accepting the other three shapes structurally; when no recognizer matches,
`validate` and `validate_with_type` return `InvalidPixKey` and `detect_type`
returns `none`. -/
theorem pix_dispatch_order (s : List Char) :
    (Pix.detect_type s = some .cpf ↔ Pix.is_cpf_format (trim s) = true)
  ∧ (Pix.detect_type s = some .cnpj ↔
      (Pix.is_cpf_format (trim s) = false ∧ Pix.is_cnpj_format (trim s) = true))
  ∧ (Pix.detect_type s = some .email ↔
      (Pix.is_cpf_format (trim s) = false ∧ Pix.is_cnpj_format (trim s) = false ∧
       Pix.is_email_format (trim s) = true))
  ∧ (Pix.detect_type s = some .phone ↔
      (Pix.is_cpf_format (trim s) = false ∧ Pix.is_cnpj_format (trim s) = false ∧
       Pix.is_email_format (trim s) = false ∧ Pix.is_phone_format (trim s) = true))
  ∧ (Pix.detect_type s = some .random ↔
      (Pix.is_cpf_format (trim s) = false ∧ Pix.is_cnpj_format (trim s) = false ∧
       Pix.is_email_format (trim s) = false ∧ Pix.is_phone_format (trim s) = false ∧
       Pix.is_random_key_format (trim s) = true))
  ∧ (Pix.detect_type s = none ↔
      (Pix.is_cpf_format (trim s) = false ∧ Pix.is_cnpj_format (trim s) = false ∧
       Pix.is_email_format (trim s) = false ∧ Pix.is_phone_format (trim s) = false ∧
       Pix.is_random_key_format (trim s) = false))
  ∧ (Pix.validate s =
      match Pix.detect_type s with
      | some .cpf =>
          match Cpf.validate (trim s) with
          | .ok _ => .ok ()
          | .error e => .error e
      | some .cnpj =>
          match Cnpj.validate (trim s) with
          | .ok _ => .ok ()
          | .error e => .error e
      | some _ => .ok ()
      | none => .error (.invalidPixKey "formato não reconhecido".data))
  ∧ (Pix.validate_with_type s =
      match Pix.detect_type s with
      | some .cpf =>
          match Cpf.validate (trim s) with
          | .ok n => .ok (.cpf, n)
          | .error e => .error e
      | some .cnpj =>
          match Cnpj.validate (trim s) with
          | .ok n => .ok (.cnpj, n)
          | .error e => .error e
      | some .email => .ok (.email, lowerStr (trim s))
      | some .phone => .ok (.phone, trim s)
      | some .random => .ok (.random, lowerStr (trim s))
      | none => .error (.invalidPixKey "formato não reconhecido".data)) := by
  by_cases h1 : Pix.is_cpf_format (trim s) = true <;>
  by_cases h2 : Pix.is_cnpj_format (trim s) = true <;>
  by_cases h3 : Pix.is_email_format (trim s) = true <;>
  by_cases h4 : Pix.is_phone_format (trim s) = true <;>
  by_cases h5 : Pix.is_random_key_format (trim s) = true <;>
    simp [Pix.detect_type, Pix.validate, Pix.validate_with_type, h1, h2, h3, h4, h5]

/-! Trimming lemmas. -/

lemma dropWhile_take_of_eq (p : Char → Bool) (l : List Char)
    (h : l.dropWhile p = l) : ∀ k, (l.take k).dropWhile p = l.take k := by
  intro k
  cases l with
  | nil => simp
  | cons c t =>
      cases k with
      | zero => simp
      | succ k =>
          have hc : p c = false := by

            by_contra hpc
            have hpc' : p c = true := by simpa using hpc
            rw [List.dropWhile_cons, if_pos hpc'] at h
            have hlen := congrArg List.length h
            have hle := ((List.dropWhile_suffix p).length_le : (t.dropWhile p).length ≤ t.length)
            simp at hlen
            omega
          simp [List.dropWhile_cons, hc]

lemma trim_idem (s : List Char) : trim (trim s) = trim s := by
  unfold trim
  have hb : (((s.dropWhile Char.isWhitespace).reverse.dropWhile
        Char.isWhitespace).reverse).dropWhile Char.isWhitespace =
      ((s.dropWhile Char.isWhitespace).reverse.dropWhile Char.isWhitespace).reverse := by
    have hpre : ((s.dropWhile Char.isWhitespace).reverse.dropWhile
          Char.isWhitespace).reverse <+: s.dropWhile Char.isWhitespace := by
      have hsuf : (s.dropWhile Char.isWhitespace).reverse.dropWhile Char.isWhitespace
          <:+ (s.dropWhile Char.isWhitespace).reverse :=
        List.dropWhile_suffix Char.isWhitespace
      simpa using List.reverse_prefix.mpr hsuf
    rw [List.prefix_iff_eq_take.mp hpre]
    exact dropWhile_take_of_eq _ _ (List.dropWhile_idempotent _ _) _
  rw [hb, List.reverse_reverse, List.dropWhile_idempotent]

/-- C10: every PIX entry point strips surrounding whitespace before any
recognizer runs — each gives the same outcome on a padded key as on its
trimmed form, and (by the `validate_with_type` clause combined with
`pix_dispatch_order`) every returned value is derived from the trimmed key. -/
theorem pix_trim_invariant (s : List Char) :
    Pix.detect_type s = Pix.detect_type (trim s)
  ∧ Pix.validate s = Pix.validate (trim s)
  ∧ Pix.validate_with_type s = Pix.validate_with_type (trim s)
  ∧ Pix.normalize s = Pix.normalize (trim s) := by
  refine ⟨?_, ?_, ?_, ?_⟩
  · unfold Pix.detect_type
    rw [trim_idem]
  · unfold Pix.validate
    rw [trim_idem]
  · unfold Pix.validate_with_type
    rw [trim_idem]
  · unfold Pix.normalize
    rw [trim_idem]

/-- C6: each kind's `format` is the identity on any input whose normalizedform
does not have the kind's fixed length — 11 for CPF, 14 for CNPJ, 8 for CEP,
and 10/11 national digits for phone; e.g. `format_postal_code "1234" = "1234"`. -/
theorem format_identity_law (s : List Char) :
    ((Cpf.normalize s).length ≠ 11 → Cpf.format s = s)
  ∧ ((Cnpj.normalize s).length ≠ 14 → Cnpj.format s = s)
  ∧ ((Cep.normalize s).length ≠ 8 → Cep.format s = s)
  ∧ ((Phone.strip_country (Phone.normalize s)).length ≠ 10 →
     (Phone.strip_country (Phone.normalize s)).length ≠ 11 →
     Phone.format s = s)
  ∧ Cep.format "1234".data = "1234".data := by
  refine ⟨?_, ?_, ?_, ?_, rfl⟩
  · intro h
    unfold Cpf.format
    rw [if_neg h]
  · intro h
    unfold Cnpj.format
    rw [if_neg h]
  · intro h
    unfold Cep.format
    rw [if_neg h]
  · intro h10 h11
    unfold Phone.strip_country at h10 h11
    unfold Phone.format
    simp only []
    rw [if_neg h11, if_neg h10]

/-- Witness for `format_identity_law` at `"1234"`, whose normalized form (4
digits, no country prefix) matches none of the fixed lengths. -/
theorem format_identity_law_witness :
    Cpf.format "1234".data = "1234".data
  ∧ Cnpj.format "1234".data = "1234".data
  ∧ Cep.format "1234".data = "1234".data
  ∧ Phone.format "1234".data = "1234".data :=
  ⟨(format_identity_law "1234".data).1 (by decide),
   (format_identity_law "1234".data).2.1 (by decide),
   (format_identity_law "1234".data).2.2.1 (by decide),
   (format_identity_law "1234".data).2.2.2.1 (by decide) (by decide)⟩

/-! Digit-character lemmas for the check-digit round-trip property. -/

lemma digitChar_isDigit {d : Nat} (h : d < 10) : (digitChar d).isDigit = true := by
  interval_cases d <;> decide

lemma dval_digitChar {d : Nat} (h : d < 10) : dval (digitChar d) = d := by
  interval_cases d <;> decide

lemma digitChar_toNat {d : Nat} (h : d < 10) : (digitChar d).toNat = 48 + d := by
  interval_cases d <;> decide

lemma digitChar_inj {a b : Nat} (ha : a < 10) (hb : b < 10)
    (h : digitChar a = digitChar b) : a = b := by
  have h2 := congrArg Char.toNat h
  rw [digitChar_toNat ha, digitChar_toNat hb] at h2
  omega

lemma checkDigitOfSum_lt_ten (sum : Nat) : checkDigitOfSum sum < 10 := by
  unfold checkDigitOfSum
  split_ifs <;> omega

lemma map_dval_map_digitChar (ds : List Nat) (h : ∀ d ∈ ds, d < 10) :
    (ds.map digitChar).map dval = ds := by
  rw [List.map_map]
  have h2 : ds.map (dval ∘ digitChar) = ds.map id :=
    List.map_eq_map_iff.mpr fun d hd => dval_digitChar (h d hd)
  rw [h2, List.map_id]

lemma mem_map_digitChar_isDigit {ds : List Nat} (h : ∀ d ∈ ds, d < 10) :
    ∀ c ∈ ds.map digitChar, c.isDigit = true := by
  intro c hc
  obtain ⟨d, hd, rfl⟩ := List.mem_map.mp hc
  exact digitChar_isDigit (h d hd)

lemma not_contains_invalid_of_base (ds : List Nat) (x y : Nat)
    (h9 : ds.length = 9) (hlt : ∀ d ∈ ds, d < 10)
    (hrep : ∀ d, d < 10 → ds ≠ List.replicate 9 d) :
    Cpf.INVALID_CPFS.contains ((ds ++ [x, y]).map digitChar) = false := by
  by_contra hc
  have hc' : Cpf.INVALID_CPFS.contains ((ds ++ [x, y]).map digitChar) = true := by
    simpa using hc
  rw [invalid_cpfs_eq] at hc'
  have hmem : (ds ++ [x, y]).map digitChar ∈
      (List.range 10).map fun d => List.replicate 11 (digitChar d) := by
    simpa [List.contains, List.elem_iff] using hc'
  obtain ⟨d, hd, heq⟩ := List.mem_map.mp hmem
  rw [List.mem_range] at hd
  have hall : ∀ z ∈ ds ++ [x, y], digitChar z = digitChar d := by
    intro z hz
    have hzm : digitChar z ∈ (ds ++ [x, y]).map digitChar := List.mem_map_of_mem _ hz
    rw [← heq] at hzm
    exact List.eq_of_mem_replicate hzm
  have hds : ds = List.replicate 9 d := by
    rw [List.eq_replicate_iff]
    refine ⟨h9, fun b hb => ?_⟩
    exact digitChar_inj (hlt b hb) hd (hall b (List.mem_append_left _ hb))
  exact hrep d hd hds

lemma cpf_validate_eval (n : List Char) (h11 : n.length = 11)
    (hall : ∀ c ∈ n, c.isDigit = true)
    (hninv : Cpf.INVALID_CPFS.contains n = false) :
    Cpf.validate n = if Cpf.validate_check_digits n = true then .ok n
      else .error (.invalidCheckDigits "CPF".data) := by
  unfold Cpf.validate
  simp only []
  have hnorm : Cpf.normalize n = n := List.filter_eq_self.mpr hall
  rw [hnorm]
  rw [if_neg (by omega : ¬ (n.length ≠ 11))]
  rw [if_neg (not_not_intro (List.all_eq_true.mpr hall))]
  have hninv2 : n ∉ Cpf.INVALID_CPFS := by simpa [List.contains] using hninv
  rw [if_neg (fun h => by simp at h; exact hninv2 h)]
  by_cases hv : Cpf.validate_check_digits n = true
  · rw [if_neg (not_not_intro hv), if_pos hv]
  · rw [if_pos hv, if_neg hv]

lemma cpfCheck1_append (ds rest : List Nat) (h9 : 9 ≤ ds.length) :
    cpfCheck1 (ds ++ rest) = cpfCheck1 ds := by
  unfold cpfCheck1
  congr 1
  congr 1
  apply List.map_eq_map_iff.mpr
  intro i hi
  rw [List.mem_range] at hi
  rw [List.getD_append _ _ _ _ (by omega)]

lemma cpfCheck2_append (ds rest : List Nat) (h10 : 10 ≤ ds.length) :
    cpfCheck2 (ds ++ rest) = cpfCheck2 ds := by
  unfold cpfCheck2
  congr 1
  congr 1
  apply List.map_eq_map_iff.mpr
  intro i hi
  rw [List.mem_range] at hi
  rw [List.getD_append _ _ _ _ (by omega)]

lemma cpf_validate_base_append (ds : List Nat) (x y : Nat) (h9 : ds.length = 9)
    (hlt : ∀ d ∈ ds, d < 10) (hx : x < 10) (hy : y < 10)
    (hrep : ∀ d, d < 10 → ds ≠ List.replicate 9 d) :
    Cpf.validate ((ds ++ [x, y]).map digitChar) =
      if cpfCheck1 ds = x ∧ cpfCheck2 (ds ++ [x]) = y
      then .ok ((ds ++ [x, y]).map digitChar)
      else .error (.invalidCheckDigits "CPF".data) := by
  have hltall : ∀ d ∈ ds ++ [x, y], d < 10 := by
    intro d hd
    rcases List.mem_append.mp hd with h | h
    · exact hlt d h
    · simp only [List.mem_cons, List.not_mem_nil, or_false] at h
      rcases h with rfl | rfl <;> assumption
  have hall := mem_map_digitChar_isDigit hltall
  have hlen : ((ds ++ [x, y]).map digitChar).length = 11 := by simp [h9]
  have hninv := not_contains_invalid_of_base ds x y h9 hlt hrep
  rw [cpf_validate_eval _ hlen hall hninv]
  have hiff := cpf_check_digits_iff _ hlen hall
  rw [map_dval_map_digitChar _ hltall] at hiff
  have hg9 : (ds ++ [x, y]).getD 9 0 = x := by
    rw [List.getD_append_right _ _ _ _ (by omega), h9]
    simp
  have hg10 : (ds ++ [x, y]).getD 10 0 = y := by
    rw [List.getD_append_right _ _ _ _ (by omega), h9]
    simp
  have hc1 : cpfCheck1 (ds ++ [x, y]) = cpfCheck1 ds :=
    cpfCheck1_append ds [x, y] (by omega)
  have hc2 : cpfCheck2 (ds ++ [x, y]) = cpfCheck2 (ds ++ [x]) := by
    have hsplit : ds ++ [x, y] = (ds ++ [x]) ++ [y] := by simp
    rw [hsplit, cpfCheck2_append _ _ (by simp [h9])]
  rw [hg9, hg10, hc1, hc2] at hiff
  by_cases hcond : cpfCheck1 ds = x ∧ cpfCheck2 (ds ++ [x]) = y
  · rw [if_pos hcond, if_pos (hiff.mpr hcond)]
  · rw [if_neg hcond, if_neg (fun hv => hcond (hiff.mp hv))]

/-- C4 as stated is false: for the all-ones 9-digit base the two §4.1 check
digits are both `1`, the appended value is the repeated-digit sequence
`"11111111111"`, and `validate` rejects it with `InvalidCpf` — not `Ok`. -/
theorem cpf_append_repeated_base_rejected :
    (List.replicate 9 1 ++ [cpfCheck1 (List.replicate 9 1),
        cpfCheck2 (List.replicate 9 1 ++ [cpfCheck1 (List.replicate 9 1)])]).map digitChar
      = "11111111111".data
  ∧ Cpf.validate "11111111111".data
      = .error (.invalidCpf "sequência de dígitos repetidos".data) :=
  ⟨by decide, by rfl⟩

/-- C4 (amended): for every 9-digit base that is not itself an all-repeated
digit sequence, appending the two §4.1 check digits yields an 11-digit string
that CPF `validate` accepts, and flipping either appended check digit to any
other digit makes `validate` reject with `InvalidCheckDigits`.  (The
all-repeated bases must be excluded: their appended form is one of the ten
sequences `validate` rejects as `InvalidCpf` before any checksum runs.) -/
theorem cpf_append_check_digits (ds : List Nat) (h9 : ds.length = 9)
    (hlt : ∀ d ∈ ds, d < 10) (hrep : ∀ d, d < 10 → ds ≠ List.replicate 9 d) :
    Cpf.validate ((ds ++ [cpfCheck1 ds,
        cpfCheck2 (ds ++ [cpfCheck1 ds])]).map digitChar)
      = .ok ((ds ++ [cpfCheck1 ds, cpfCheck2 (ds ++ [cpfCheck1 ds])]).map digitChar)
  ∧ (∀ e, e < 10 → e ≠ cpfCheck1 ds →
      Cpf.validate ((ds ++ [e, cpfCheck2 (ds ++ [cpfCheck1 ds])]).map digitChar)
        = .error (.invalidCheckDigits "CPF".data))
  ∧ (∀ e, e < 10 → e ≠ cpfCheck2 (ds ++ [cpfCheck1 ds]) →
      Cpf.validate ((ds ++ [cpfCheck1 ds, e]).map digitChar)
        = .error (.invalidCheckDigits "CPF".data)) := by
  refine ⟨?_, ?_, ?_⟩
  · rw [cpf_validate_base_append ds _ _ h9 hlt
      (show cpfCheck1 ds < 10 from checkDigitOfSum_lt_ten _)
      (show cpfCheck2 (ds ++ [cpfCheck1 ds]) < 10 from checkDigitOfSum_lt_ten _) hrep]
    rw [if_pos ⟨rfl, rfl⟩]
  · intro e he hne
    rw [cpf_validate_base_append ds e _ h9 hlt he
      (show cpfCheck2 (ds ++ [cpfCheck1 ds]) < 10 from checkDigitOfSum_lt_ten _) hrep]
    exact if_neg fun hc => hne hc.1.symm
  · intro e he hne
    rw [cpf_validate_base_append ds _ e h9 hlt
      (show cpfCheck1 ds < 10 from checkDigitOfSum_lt_ten _) he hrep]
    exact if_neg fun hc => hne hc.2.symm

/-- Witness for `cpf_append_check_digits` at the base `123456789`: the check
digits come out as `0` and `9`, giving the accepted CPF `12345678909`, and
flipping either check digit to `5` is rejected with `InvalidCheckDigits`. -/
theorem cpf_append_check_digits_witness :
    Cpf.validate "12345678909".data = .ok "12345678909".data
  ∧ Cpf.validate "12345678959".data = .error (.invalidCheckDigits "CPF".data)
  ∧ Cpf.validate "12345678905".data = .error (.invalidCheckDigits "CPF".data) := by
  have h := cpf_append_check_digits [1, 2, 3, 4, 5, 6, 7, 8, 9] (by decide)
    (by decide) (by decide)
  have e1 : ([1, 2, 3, 4, 5, 6, 7, 8, 9] ++ [cpfCheck1 [1, 2, 3, 4, 5, 6, 7, 8, 9],
      cpfCheck2 ([1, 2, 3, 4, 5, 6, 7, 8, 9] ++
        [cpfCheck1 [1, 2, 3, 4, 5, 6, 7, 8, 9]])]).map digitChar
      = "12345678909".data := by decide
  have e2 : ([1, 2, 3, 4, 5, 6, 7, 8, 9] ++ [5,
      cpfCheck2 ([1, 2, 3, 4, 5, 6, 7, 8, 9] ++
        [cpfCheck1 [1, 2, 3, 4, 5, 6, 7, 8, 9]])]).map digitChar
      = "12345678959".data := by decide
  have e3 : ([1, 2, 3, 4, 5, 6, 7, 8, 9] ++
      [cpfCheck1 [1, 2, 3, 4, 5, 6, 7, 8, 9], 5]).map digitChar
      = "12345678905".data := by decide
  refine ⟨?_, ?_, ?_⟩
  · have h1 := h.1
    rw [e1] at h1
    exact h1
  · have h2 := h.2.1 5 (by decide) (by decide)
    rw [e2] at h2
    exact h2
  · have h3 := h.2.2 5 (by decide) (by decide)
    rw [e3] at h3
    exact h3

/-! Structure lemmas for the deterministic regex matchers. -/

lemma takeDigits_some : ∀ (n : Nat) (l r : List Char), takeDigits n l = some r →
    ∃ p, l = p ++ r ∧ p.length = n ∧ ∀ c ∈ p, c.isDigit = true := by
  intro n
  induction n with
  | zero =>
      intro l r h
      simp only [takeDigits, Option.some_inj] at h
      exact ⟨[], by simp [h], rfl, by simp⟩
  | succ n ih =>
      intro l r h
      cases l with
      | nil => simp [takeDigits] at h
      | cons c t =>
          simp only [takeDigits] at h
          by_cases hc : c.isDigit = true
          · rw [if_pos hc] at h
            obtain ⟨p, hp1, hp2, hp3⟩ := ih t r h
            refine ⟨c :: p, by simp [hp1], by simp [hp2], ?_⟩
            intro x hx
            rcases List.mem_cons.mp hx with rfl | hx
            · exact hc
            · exact hp3 x hx
          · rw [if_neg hc] at h
            exact absurd h (by simp)

lemma takeDigits_of_all_digits : ∀ (n : Nat) (l : List Char),
    (∀ c ∈ l, c.isDigit = true) →
    takeDigits n l = if n ≤ l.length then some (l.drop n) else none := by
  intro n
  induction n with
  | zero => intro l _; simp [takeDigits]
  | succ n ih =>
      intro l h
      cases l with
      | nil => simp [takeDigits]
      | cons c t =>
          have hc : c.isDigit = true := h c (by simp)
          have ht := ih t fun x hx => h x (by simp [hx])
          simp only [takeDigits, hc, if_true, ht, List.length_cons, List.drop_succ_cons]
          split_ifs <;> first | rfl | omega

lemma skipChar_decomp (c : Char) (l : List Char) :
    ∃ p, l = p ++ skipChar c l ∧ p.length ≤ 1 ∧ ∀ x ∈ p, x = c := by
  cases l with
  | nil => exact ⟨[], rfl, by simp, by simp⟩
  | cons a t =>
      by_cases hac : a = c
      · subst hac
        refine ⟨[a], ?_, by simp, by simp⟩
        simp [skipChar]
      · refine ⟨[], ?_, by simp, by simp⟩
        simp [skipChar, hac]

lemma skipChar_of_all_digits (c : Char) (hc : c.isDigit = false) (l : List Char)
    (h : ∀ x ∈ l, x.isDigit = true) : skipChar c l = l := by
  cases l with
  | nil => rfl
  | cons a t =>
      have ha : a.isDigit = true := h a (by simp)
      have hne : a ≠ c := fun he => by rw [he, hc] at ha; exact absurd ha (by simp)
      simp [skipChar, hne]

lemma expectChar_some {c : Char} : ∀ {l r : List Char},
    expectChar c l = some r → l = c :: r := by
  intro l r h
  cases l with
  | nil => simp [expectChar] at h
  | cons a t =>
      by_cases hac : a = c
      · subst hac
        simp [expectChar] at h
        rw [h]
      · simp [expectChar, hac] at h

lemma takeHex_some : ∀ (n : Nat) (l r : List Char), takeHex n l = some r →
    ∃ p, l = p ++ r ∧ p.length = n ∧ ∀ c ∈ p, isHexLower c = true := by
  intro n
  induction n with
  | zero =>
      intro l r h
      simp only [takeHex, Option.some_inj] at h
      exact ⟨[], by simp [h], rfl, by simp⟩
  | succ n ih =>
      intro l r h
      cases l with
      | nil => simp [takeHex] at h
      | cons c t =>
          simp only [takeHex] at h
          by_cases hc : isHexLower c = true
          · rw [if_pos hc] at h
            obtain ⟨p, hp1, hp2, hp3⟩ := ih t r h
            refine ⟨c :: p, by simp [hp1], by simp [hp2], ?_⟩
            intro x hx
            rcases List.mem_cons.mp hx with rfl | hx
            · exact hc
            · exact hp3 x hx
          · rw [if_neg hc] at h
            exact absurd h (by simp)

lemma is_cpf_format_structure {l : List Char} (h : Pix.is_cpf_format l = true) :
    (l.filter Char.isDigit).length = 11 ∧ 11 ≤ l.length ∧ l.length ≤ 14 ∧
    ∀ c ∈ l, c.isDigit = true ∨ c = '.' ∨ c = '-' := by
  unfold Pix.is_cpf_format at h
  cases e1 : takeDigits 3 l with
  | none => rw [e1] at h; simp at h
  | some r1 =>
  rw [e1] at h
  simp only [Option.map_some', Option.some_bind] at h
  cases e2 : takeDigits 3 (skipChar '.' r1) with
  | none => rw [e2] at h; simp at h
  | some r2 =>
  rw [e2] at h
  simp only [Option.map_some', Option.some_bind] at h
  cases e3 : takeDigits 3 (skipChar '.' r2) with
  | none => rw [e3] at h; simp at h
  | some r3 =>
  rw [e3] at h
  simp only [Option.map_some', Option.some_bind] at h
  cases e4 : takeDigits 2 (skipChar '-' r3) with
  | none => rw [e4] at h; simp at h
  | some r4 =>
  rw [e4] at h
  cases r4 with
  | cons a t => simp at h
  | nil =>
  obtain ⟨p1, hl, hp1len, hp1dig⟩ := takeDigits_some 3 l r1 e1
  obtain ⟨q1, hr1, hq1len, hq1dot⟩ := skipChar_decomp '.' r1
  obtain ⟨p2, hr1b, hp2len, hp2dig⟩ := takeDigits_some 3 _ r2 e2
  obtain ⟨q2, hr2, hq2len, hq2dot⟩ := skipChar_decomp '.' r2
  obtain ⟨p3, hr2b, hp3len, hp3dig⟩ := takeDigits_some 3 _ r3 e3
  obtain ⟨q3, hr3, hq3len, hq3dash⟩ := skipChar_decomp '-' r3
  obtain ⟨p4, hr3b, hp4len, hp4dig⟩ := takeDigits_some 2 _ [] e4
  have hfull : l = p1 ++ q1 ++ p2 ++ q2 ++ p3 ++ q3 ++ p4 := by
    rw [hl, hr1, hr1b, hr2, hr2b, hr3, hr3b]
    simp [List.append_assoc]
  have f1 : p1.filter Char.isDigit = p1 := List.filter_eq_self.mpr hp1dig
  have f2 : p2.filter Char.isDigit = p2 := List.filter_eq_self.mpr hp2dig
  have f3 : p3.filter Char.isDigit = p3 := List.filter_eq_self.mpr hp3dig
  have f4 : p4.filter Char.isDigit = p4 := List.filter_eq_self.mpr hp4dig
  have g1 : q1.filter Char.isDigit = [] :=
    List.filter_eq_nil_iff.mpr fun a ha => by rw [hq1dot a ha]; decide
  have g2 : q2.filter Char.isDigit = [] :=
    List.filter_eq_nil_iff.mpr fun a ha => by rw [hq2dot a ha]; decide
  have g3 : q3.filter Char.isDigit = [] :=
    List.filter_eq_nil_iff.mpr fun a ha => by rw [hq3dash a ha]; decide
  have hlens := congrArg List.length hfull
  simp only [List.length_append, hp1len, hp2len, hp3len, hp4len] at hlens
  refine ⟨?_, by omega, by omega, ?_⟩
  · rw [hfull]
    simp [List.filter_append, f1, f2, f3, f4, g1, g2, g3, hp1len, hp2len, hp3len, hp4len]
  · intro c hc
    rw [hfull] at hc
    rcases List.mem_append.mp hc with hc | hp4
    · rcases List.mem_append.mp hc with hc | hq3
      · rcases List.mem_append.mp hc with hc | hp3
        · rcases List.mem_append.mp hc with hc | hq2
          · rcases List.mem_append.mp hc with hc | hp2
            · rcases List.mem_append.mp hc with hp1 | hq1
              · exact Or.inl (hp1dig c hp1)
              · exact Or.inr (Or.inl (hq1dot c hq1))
            · exact Or.inl (hp2dig c hp2)
          · exact Or.inr (Or.inl (hq2dot c hq2))
        · exact Or.inl (hp3dig c hp3)
      · exact Or.inr (Or.inr (hq3dash c hq3))
    · exact Or.inl (hp4dig c hp4)

lemma is_cnpj_format_structure {l : List Char} (h : Pix.is_cnpj_format l = true) :
    (l.filter Char.isDigit).length = 14 ∧ 14 ≤ l.length ∧ l.length ≤ 18 ∧
    ∀ c ∈ l, c.isDigit = true ∨ c = '.' ∨ c = '/' ∨ c = '-' := by
  unfold Pix.is_cnpj_format at h
  cases e1 : takeDigits 2 l with
  | none => rw [e1] at h; simp at h
  | some r1 =>
  rw [e1] at h
  simp only [Option.map_some', Option.some_bind] at h
  cases e2 : takeDigits 3 (skipChar '.' r1) with
  | none => rw [e2] at h; simp at h
  | some r2 =>
  rw [e2] at h
  simp only [Option.map_some', Option.some_bind] at h
  cases e3 : takeDigits 3 (skipChar '.' r2) with
  | none => rw [e3] at h; simp at h
  | some r3 =>
  rw [e3] at h
  simp only [Option.map_some', Option.some_bind] at h
  cases e4 : takeDigits 4 (skipChar '/' r3) with
  | none => rw [e4] at h; simp at h
  | some r4 =>
  rw [e4] at h
  simp only [Option.map_some', Option.some_bind] at h
  cases e5 : takeDigits 2 (skipChar '-' r4) with
  | none => rw [e5] at h; simp at h
  | some r5 =>
  rw [e5] at h
  cases r5 with
  | cons a t => simp at h
  | nil =>
  obtain ⟨p1, hl, hp1len, hp1dig⟩ := takeDigits_some 2 l r1 e1
  obtain ⟨q1, hr1, hq1len, hq1dot⟩ := skipChar_decomp '.' r1
  obtain ⟨p2, hr1b, hp2len, hp2dig⟩ := takeDigits_some 3 _ r2 e2
  obtain ⟨q2, hr2, hq2len, hq2dot⟩ := skipChar_decomp '.' r2
  obtain ⟨p3, hr2b, hp3len, hp3dig⟩ := takeDigits_some 3 _ r3 e3
  obtain ⟨q3, hr3, hq3len, hq3slash⟩ := skipChar_decomp '/' r3
  obtain ⟨p4, hr3b, hp4len, hp4dig⟩ := takeDigits_some 4 _ r4 e4
  obtain ⟨q4, hr4, hq4len, hq4dash⟩ := skipChar_decomp '-' r4
  obtain ⟨p5, hr4b, hp5len, hp5dig⟩ := takeDigits_some 2 _ [] e5
  have hfull : l = p1 ++ q1 ++ p2 ++ q2 ++ p3 ++ q3 ++ p4 ++ q4 ++ p5 := by
    rw [hl, hr1, hr1b, hr2, hr2b, hr3, hr3b, hr4, hr4b]
    simp [List.append_assoc]
  have f1 : p1.filter Char.isDigit = p1 := List.filter_eq_self.mpr hp1dig
  have f2 : p2.filter Char.isDigit = p2 := List.filter_eq_self.mpr hp2dig
  have f3 : p3.filter Char.isDigit = p3 := List.filter_eq_self.mpr hp3dig
  have f4 : p4.filter Char.isDigit = p4 := List.filter_eq_self.mpr hp4dig
  have f5 : p5.filter Char.isDigit = p5 := List.filter_eq_self.mpr hp5dig
  have g1 : q1.filter Char.isDigit = [] :=
    List.filter_eq_nil_iff.mpr fun a ha => by rw [hq1dot a ha]; decide
  have g2 : q2.filter Char.isDigit = [] :=
    List.filter_eq_nil_iff.mpr fun a ha => by rw [hq2dot a ha]; decide
  have g3 : q3.filter Char.isDigit = [] :=
    List.filter_eq_nil_iff.mpr fun a ha => by rw [hq3slash a ha]; decide
  have g4 : q4.filter Char.isDigit = [] :=
    List.filter_eq_nil_iff.mpr fun a ha => by rw [hq4dash a ha]; decide
  have hlens := congrArg List.length hfull
  simp only [List.length_append, hp1len, hp2len, hp3len, hp4len, hp5len] at hlens
  refine ⟨?_, by omega, by omega, ?_⟩
  · rw [hfull]
    simp [List.filter_append, f1, f2, f3, f4, f5, g1, g2, g3, g4,
      hp1len, hp2len, hp3len, hp4len, hp5len]
  · intro c hc
    rw [hfull] at hc
    rcases List.mem_append.mp hc with hc | hp5
    · rcases List.mem_append.mp hc with hc | hq4
      · rcases List.mem_append.mp hc with hc | hp4
        · rcases List.mem_append.mp hc with hc | hq3
          · rcases List.mem_append.mp hc with hc | hp3
            · rcases List.mem_append.mp hc with hc | hq2
              · rcases List.mem_append.mp hc with hc | hp2
                · rcases List.mem_append.mp hc with hp1 | hq1
                  · exact Or.inl (hp1dig c hp1)
                  · exact Or.inr (Or.inl (hq1dot c hq1))
                · exact Or.inl (hp2dig c hp2)
              · exact Or.inr (Or.inl (hq2dot c hq2))
            · exact Or.inl (hp3dig c hp3)
          · exact Or.inr (Or.inr (Or.inl (hq3slash c hq3)))
        · exact Or.inl (hp4dig c hp4)
      · exact Or.inr (Or.inr (Or.inr (hq4dash c hq4)))
    · exact Or.inl (hp5dig c hp5)

lemma is_cpf_format_of_digits {l : List Char} (h : ∀ c ∈ l, c.isDigit = true)
    (h11 : l.length = 11) : Pix.is_cpf_format l = true := by
  have hstep : ∀ (m : List Char), (∀ c ∈ m, c.isDigit = true) →
      ∀ (k : Nat), ∀ c ∈ m.drop k, c.isDigit = true :=
    fun m hm _ c hc => hm c (List.mem_of_mem_drop hc)
  unfold Pix.is_cpf_format
  rw [takeDigits_of_all_digits 3 l h, if_pos (by omega)]
  simp only [Option.map_some', Option.some_bind]
  rw [skipChar_of_all_digits '.' (by decide) _ (hstep l h 3),
    takeDigits_of_all_digits 3 _ (hstep l h 3),
    if_pos (by simp [List.length_drop]; omega)]
  simp only [Option.map_some', Option.some_bind]
  rw [skipChar_of_all_digits '.' (by decide) _ (hstep _ (hstep l h 3) 3),
    takeDigits_of_all_digits 3 _ (hstep _ (hstep l h 3) 3),
    if_pos (by simp [List.length_drop]; omega)]
  simp only [Option.map_some', Option.some_bind]
  rw [skipChar_of_all_digits '-' (by decide) _ (hstep _ (hstep _ (hstep l h 3) 3) 3),
    takeDigits_of_all_digits 2 _ (hstep _ (hstep _ (hstep l h 3) 3) 3),
    if_pos (by simp [List.length_drop]; omega)]
  have hnil : (((l.drop 3).drop 3).drop 3).drop 2 = [] := by
    have hz : ((((l.drop 3).drop 3).drop 3).drop 2).length = 0 := by
      simp [List.length_drop]
      omega
    exact List.length_eq_zero.mp hz
  rw [hnil]

lemma is_cnpj_format_of_digits {l : List Char} (h : ∀ c ∈ l, c.isDigit = true)
    (h14 : l.length = 14) : Pix.is_cnpj_format l = true := by
  have hstep : ∀ (m : List Char), (∀ c ∈ m, c.isDigit = true) →
      ∀ (k : Nat), ∀ c ∈ m.drop k, c.isDigit = true :=
    fun m hm _ c hc => hm c (List.mem_of_mem_drop hc)
  unfold Pix.is_cnpj_format
  rw [takeDigits_of_all_digits 2 l h, if_pos (by omega)]
  simp only [Option.map_some', Option.some_bind]
  rw [skipChar_of_all_digits '.' (by decide) _ (hstep l h 2),
    takeDigits_of_all_digits 3 _ (hstep l h 2),
    if_pos (by simp [List.length_drop]; omega)]
  simp only [Option.map_some', Option.some_bind]
  rw [skipChar_of_all_digits '.' (by decide) _ (hstep _ (hstep l h 2) 3),
    takeDigits_of_all_digits 3 _ (hstep _ (hstep l h 2) 3),
    if_pos (by simp [List.length_drop]; omega)]
  simp only [Option.map_some', Option.some_bind]
  rw [skipChar_of_all_digits '/' (by decide) _ (hstep _ (hstep _ (hstep l h 2) 3) 3),
    takeDigits_of_all_digits 4 _ (hstep _ (hstep _ (hstep l h 2) 3) 3),
    if_pos (by simp [List.length_drop]; omega)]
  simp only [Option.map_some', Option.some_bind]
  rw [skipChar_of_all_digits '-' (by decide) _
      (hstep _ (hstep _ (hstep _ (hstep l h 2) 3) 3) 4),
    takeDigits_of_all_digits 2 _ (hstep _ (hstep _ (hstep _ (hstep l h 2) 3) 3) 4),
    if_pos (by simp [List.length_drop]; omega)]
  have hnil : ((((l.drop 2).drop 3).drop 3).drop 4).drop 2 = [] := by
    have hz : (((((l.drop 2).drop 3).drop 3).drop 4).drop 2).length = 0 := by
      simp [List.length_drop]
      omega
    exact List.length_eq_zero.mp hz
  rw [hnil]

/-! Lowercasing lemmas. -/

lemma char_eq_of_toNat_eq {c d : Char} (h : c.toNat = d.toNat) : c = d :=
  Char.eq_of_val_eq (UInt32.ext h)

lemma toLowerChar_cases (c : Char) :
    toLowerChar c = c
    ∨ (c = 'A' ∧ toLowerChar c = 'a')
    ∨ (c = 'B' ∧ toLowerChar c = 'b')
    ∨ (c = 'C' ∧ toLowerChar c = 'c')
    ∨ (c = 'D' ∧ toLowerChar c = 'd')
    ∨ (c = 'E' ∧ toLowerChar c = 'e')
    ∨ (c = 'F' ∧ toLowerChar c = 'f')
    ∨ (c = 'G' ∧ toLowerChar c = 'g')
    ∨ (c = 'H' ∧ toLowerChar c = 'h')
    ∨ (c = 'I' ∧ toLowerChar c = 'i')
    ∨ (c = 'J' ∧ toLowerChar c = 'j')
    ∨ (c = 'K' ∧ toLowerChar c = 'k')
    ∨ (c = 'L' ∧ toLowerChar c = 'l')
    ∨ (c = 'M' ∧ toLowerChar c = 'm')
    ∨ (c = 'N' ∧ toLowerChar c = 'n')
    ∨ (c = 'O' ∧ toLowerChar c = 'o')
    ∨ (c = 'P' ∧ toLowerChar c = 'p')
    ∨ (c = 'Q' ∧ toLowerChar c = 'q')
    ∨ (c = 'R' ∧ toLowerChar c = 'r')
    ∨ (c = 'S' ∧ toLowerChar c = 's')
    ∨ (c = 'T' ∧ toLowerChar c = 't')
    ∨ (c = 'U' ∧ toLowerChar c = 'u')
    ∨ (c = 'V' ∧ toLowerChar c = 'v')
    ∨ (c = 'W' ∧ toLowerChar c = 'w')
    ∨ (c = 'X' ∧ toLowerChar c = 'x')
    ∨ (c = 'Y' ∧ toLowerChar c = 'y')
    ∨ (c = 'Z' ∧ toLowerChar c = 'z') := by
  by_cases h : 65 ≤ c.toNat ∧ c.toNat ≤ 90
  · have he : toLowerChar c = Char.ofNat (c.toNat + 32) := by
      unfold toLowerChar
      rw [if_pos h]
    have h26 : c.toNat = 65 ∨ c.toNat = 66 ∨ c.toNat = 67 ∨ c.toNat = 68 ∨ c.toNat = 69 ∨ c.toNat = 70 ∨ c.toNat = 71 ∨ c.toNat = 72 ∨ c.toNat = 73 ∨ c.toNat = 74 ∨ c.toNat = 75 ∨ c.toNat = 76 ∨ c.toNat = 77 ∨ c.toNat = 78 ∨ c.toNat = 79 ∨ c.toNat = 80 ∨ c.toNat = 81 ∨ c.toNat = 82 ∨ c.toNat = 83 ∨ c.toNat = 84 ∨ c.toNat = 85 ∨ c.toNat = 86 ∨ c.toNat = 87 ∨ c.toNat = 88 ∨ c.toNat = 89 ∨ c.toNat = 90 := by omega
    rcases h26 with htc | htc | htc | htc | htc | htc | htc | htc | htc | htc | htc | htc | htc | htc | htc | htc | htc | htc | htc | htc | htc | htc | htc | htc | htc | htc
    · exact Or.inr (Or.inl ⟨char_eq_of_toNat_eq (by rw [htc]; all_goals decide), by rw [he, htc]; all_goals decide⟩)
    · exact Or.inr (Or.inr (Or.inl ⟨char_eq_of_toNat_eq (by rw [htc]; all_goals decide), by rw [he, htc]; all_goals decide⟩))
    · exact Or.inr (Or.inr (Or.inr (Or.inl ⟨char_eq_of_toNat_eq (by rw [htc]; all_goals decide), by rw [he, htc]; all_goals decide⟩)))
    · exact Or.inr (Or.inr (Or.inr (Or.inr (Or.inl ⟨char_eq_of_toNat_eq (by rw [htc]; all_goals decide), by rw [he, htc]; all_goals decide⟩))))
    · exact Or.inr (Or.inr (Or.inr (Or.inr (Or.inr (Or.inl ⟨char_eq_of_toNat_eq (by rw [htc]; all_goals decide), by rw [he, htc]; all_goals decide⟩)))))
    · exact Or.inr (Or.inr (Or.inr (Or.inr (Or.inr (Or.inr (Or.inl ⟨char_eq_of_toNat_eq (by rw [htc]; all_goals decide), by rw [he, htc]; all_goals decide⟩))))))
    · exact Or.inr (Or.inr (Or.inr (Or.inr (Or.inr (Or.inr (Or.inr (Or.inl ⟨char_eq_of_toNat_eq (by rw [htc]; all_goals decide), by rw [he, htc]; all_goals decide⟩)))))))
    · exact Or.inr (Or.inr (Or.inr (Or.inr (Or.inr (Or.inr (Or.inr (Or.inr (Or.inl ⟨char_eq_of_toNat_eq (by rw [htc]; all_goals decide), by rw [he, htc]; all_goals decide⟩))))))))
    · exact Or.inr (Or.inr (Or.inr (Or.inr (Or.inr (Or.inr (Or.inr (Or.inr (Or.inr (Or.inl ⟨char_eq_of_toNat_eq (by rw [htc]; all_goals decide), by rw [he, htc]; all_goals decide⟩)))))))))
    · exact Or.inr (Or.inr (Or.inr (Or.inr (Or.inr (Or.inr (Or.inr (Or.inr (Or.inr (Or.inr (Or.inl ⟨char_eq_of_toNat_eq (by rw [htc]; all_goals decide), by rw [he, htc]; all_goals decide⟩))))))))))
    · exact Or.inr (Or.inr (Or.inr (Or.inr (Or.inr (Or.inr (Or.inr (Or.inr (Or.inr (Or.inr (Or.inr (Or.inl ⟨char_eq_of_toNat_eq (by rw [htc]; all_goals decide), by rw [he, htc]; all_goals decide⟩)))))))))))
    · exact Or.inr (Or.inr (Or.inr (Or.inr (Or.inr (Or.inr (Or.inr (Or.inr (Or.inr (Or.inr (Or.inr (Or.inr (Or.inl ⟨char_eq_of_toNat_eq (by rw [htc]; all_goals decide), by rw [he, htc]; all_goals decide⟩))))))))))))
    · exact Or.inr (Or.inr (Or.inr (Or.inr (Or.inr (Or.inr (Or.inr (Or.inr (Or.inr (Or.inr (Or.inr (Or.inr (Or.inr (Or.inl ⟨char_eq_of_toNat_eq (by rw [htc]; all_goals decide), by rw [he, htc]; all_goals decide⟩)))))))))))))
    · exact Or.inr (Or.inr (Or.inr (Or.inr (Or.inr (Or.inr (Or.inr (Or.inr (Or.inr (Or.inr (Or.inr (Or.inr (Or.inr (Or.inr (Or.inl ⟨char_eq_of_toNat_eq (by rw [htc]; all_goals decide), by rw [he, htc]; all_goals decide⟩))))))))))))))
    · exact Or.inr (Or.inr (Or.inr (Or.inr (Or.inr (Or.inr (Or.inr (Or.inr (Or.inr (Or.inr (Or.inr (Or.inr (Or.inr (Or.inr (Or.inr (Or.inl ⟨char_eq_of_toNat_eq (by rw [htc]; all_goals decide), by rw [he, htc]; all_goals decide⟩)))))))))))))))
    · exact Or.inr (Or.inr (Or.inr (Or.inr (Or.inr (Or.inr (Or.inr (Or.inr (Or.inr (Or.inr (Or.inr (Or.inr (Or.inr (Or.inr (Or.inr (Or.inr (Or.inl ⟨char_eq_of_toNat_eq (by rw [htc]; all_goals decide), by rw [he, htc]; all_goals decide⟩))))))))))))))))
    · exact Or.inr (Or.inr (Or.inr (Or.inr (Or.inr (Or.inr (Or.inr (Or.inr (Or.inr (Or.inr (Or.inr (Or.inr (Or.inr (Or.inr (Or.inr (Or.inr (Or.inr (Or.inl ⟨char_eq_of_toNat_eq (by rw [htc]; all_goals decide), by rw [he, htc]; all_goals decide⟩)))))))))))))))))
    · exact Or.inr (Or.inr (Or.inr (Or.inr (Or.inr (Or.inr (Or.inr (Or.inr (Or.inr (Or.inr (Or.inr (Or.inr (Or.inr (Or.inr (Or.inr (Or.inr (Or.inr (Or.inr (Or.inl ⟨char_eq_of_toNat_eq (by rw [htc]; all_goals decide), by rw [he, htc]; all_goals decide⟩))))))))))))))))))
    · exact Or.inr (Or.inr (Or.inr (Or.inr (Or.inr (Or.inr (Or.inr (Or.inr (Or.inr (Or.inr (Or.inr (Or.inr (Or.inr (Or.inr (Or.inr (Or.inr (Or.inr (Or.inr (Or.inr (Or.inl ⟨char_eq_of_toNat_eq (by rw [htc]; all_goals decide), by rw [he, htc]; all_goals decide⟩)))))))))))))))))))
    · exact Or.inr (Or.inr (Or.inr (Or.inr (Or.inr (Or.inr (Or.inr (Or.inr (Or.inr (Or.inr (Or.inr (Or.inr (Or.inr (Or.inr (Or.inr (Or.inr (Or.inr (Or.inr (Or.inr (Or.inr (Or.inl ⟨char_eq_of_toNat_eq (by rw [htc]; all_goals decide), by rw [he, htc]; all_goals decide⟩))))))))))))))))))))
    · exact Or.inr (Or.inr (Or.inr (Or.inr (Or.inr (Or.inr (Or.inr (Or.inr (Or.inr (Or.inr (Or.inr (Or.inr (Or.inr (Or.inr (Or.inr (Or.inr (Or.inr (Or.inr (Or.inr (Or.inr (Or.inr (Or.inl ⟨char_eq_of_toNat_eq (by rw [htc]; all_goals decide), by rw [he, htc]; all_goals decide⟩)))))))))))))))))))))
    · exact Or.inr (Or.inr (Or.inr (Or.inr (Or.inr (Or.inr (Or.inr (Or.inr (Or.inr (Or.inr (Or.inr (Or.inr (Or.inr (Or.inr (Or.inr (Or.inr (Or.inr (Or.inr (Or.inr (Or.inr (Or.inr (Or.inr (Or.inl ⟨char_eq_of_toNat_eq (by rw [htc]; all_goals decide), by rw [he, htc]; all_goals decide⟩))))))))))))))))))))))
    · exact Or.inr (Or.inr (Or.inr (Or.inr (Or.inr (Or.inr (Or.inr (Or.inr (Or.inr (Or.inr (Or.inr (Or.inr (Or.inr (Or.inr (Or.inr (Or.inr (Or.inr (Or.inr (Or.inr (Or.inr (Or.inr (Or.inr (Or.inr (Or.inl ⟨char_eq_of_toNat_eq (by rw [htc]; all_goals decide), by rw [he, htc]; all_goals decide⟩)))))))))))))))))))))))
    · exact Or.inr (Or.inr (Or.inr (Or.inr (Or.inr (Or.inr (Or.inr (Or.inr (Or.inr (Or.inr (Or.inr (Or.inr (Or.inr (Or.inr (Or.inr (Or.inr (Or.inr (Or.inr (Or.inr (Or.inr (Or.inr (Or.inr (Or.inr (Or.inr (Or.inl ⟨char_eq_of_toNat_eq (by rw [htc]; all_goals decide), by rw [he, htc]; all_goals decide⟩))))))))))))))))))))))))
    · exact Or.inr (Or.inr (Or.inr (Or.inr (Or.inr (Or.inr (Or.inr (Or.inr (Or.inr (Or.inr (Or.inr (Or.inr (Or.inr (Or.inr (Or.inr (Or.inr (Or.inr (Or.inr (Or.inr (Or.inr (Or.inr (Or.inr (Or.inr (Or.inr (Or.inr (Or.inl ⟨char_eq_of_toNat_eq (by rw [htc]; all_goals decide), by rw [he, htc]; all_goals decide⟩)))))))))))))))))))))))))
    · exact Or.inr (Or.inr (Or.inr (Or.inr (Or.inr (Or.inr (Or.inr (Or.inr (Or.inr (Or.inr (Or.inr (Or.inr (Or.inr (Or.inr (Or.inr (Or.inr (Or.inr (Or.inr (Or.inr (Or.inr (Or.inr (Or.inr (Or.inr (Or.inr (Or.inr (Or.inr (⟨char_eq_of_toNat_eq (by rw [htc]; all_goals decide), by rw [he, htc]; all_goals decide⟩))))))))))))))))))))))))))
  · left
    unfold toLowerChar
    rw [if_neg h]

lemma toLowerChar_idem (c : Char) : toLowerChar (toLowerChar c) = toLowerChar c := by
  rcases toLowerChar_cases c with h | ⟨rfl, h⟩ | ⟨rfl, h⟩ | ⟨rfl, h⟩ | ⟨rfl, h⟩ | ⟨rfl, h⟩ | ⟨rfl, h⟩ | ⟨rfl, h⟩ | ⟨rfl, h⟩ | ⟨rfl, h⟩ | ⟨rfl, h⟩ | ⟨rfl, h⟩ | ⟨rfl, h⟩ | ⟨rfl, h⟩ | ⟨rfl, h⟩ | ⟨rfl, h⟩ | ⟨rfl, h⟩ | ⟨rfl, h⟩ | ⟨rfl, h⟩ | ⟨rfl, h⟩ | ⟨rfl, h⟩ | ⟨rfl, h⟩ | ⟨rfl, h⟩ | ⟨rfl, h⟩ | ⟨rfl, h⟩ | ⟨rfl, h⟩ | ⟨rfl, h⟩
  all_goals simp [h]
  all_goals decide

lemma toLowerChar_at_iff (c : Char) : toLowerChar c = '@' ↔ c = '@' := by
  rcases toLowerChar_cases c with h | ⟨rfl, h⟩ | ⟨rfl, h⟩ | ⟨rfl, h⟩ | ⟨rfl, h⟩ | ⟨rfl, h⟩ | ⟨rfl, h⟩ | ⟨rfl, h⟩ | ⟨rfl, h⟩ | ⟨rfl, h⟩ | ⟨rfl, h⟩ | ⟨rfl, h⟩ | ⟨rfl, h⟩ | ⟨rfl, h⟩ | ⟨rfl, h⟩ | ⟨rfl, h⟩ | ⟨rfl, h⟩ | ⟨rfl, h⟩ | ⟨rfl, h⟩ | ⟨rfl, h⟩ | ⟨rfl, h⟩ | ⟨rfl, h⟩ | ⟨rfl, h⟩ | ⟨rfl, h⟩ | ⟨rfl, h⟩ | ⟨rfl, h⟩ | ⟨rfl, h⟩
  all_goals simp [h]
  all_goals decide

lemma toLowerChar_dot_iff (c : Char) : toLowerChar c = '.' ↔ c = '.' := by
  rcases toLowerChar_cases c with h | ⟨rfl, h⟩ | ⟨rfl, h⟩ | ⟨rfl, h⟩ | ⟨rfl, h⟩ | ⟨rfl, h⟩ | ⟨rfl, h⟩ | ⟨rfl, h⟩ | ⟨rfl, h⟩ | ⟨rfl, h⟩ | ⟨rfl, h⟩ | ⟨rfl, h⟩ | ⟨rfl, h⟩ | ⟨rfl, h⟩ | ⟨rfl, h⟩ | ⟨rfl, h⟩ | ⟨rfl, h⟩ | ⟨rfl, h⟩ | ⟨rfl, h⟩ | ⟨rfl, h⟩ | ⟨rfl, h⟩ | ⟨rfl, h⟩ | ⟨rfl, h⟩ | ⟨rfl, h⟩ | ⟨rfl, h⟩ | ⟨rfl, h⟩ | ⟨rfl, h⟩
  all_goals simp [h]
  all_goals decide

lemma isWhitespace_toLowerChar (c : Char) : (toLowerChar c).isWhitespace = c.isWhitespace := by
  rcases toLowerChar_cases c with h | ⟨rfl, h⟩ | ⟨rfl, h⟩ | ⟨rfl, h⟩ | ⟨rfl, h⟩ | ⟨rfl, h⟩ | ⟨rfl, h⟩ | ⟨rfl, h⟩ | ⟨rfl, h⟩ | ⟨rfl, h⟩ | ⟨rfl, h⟩ | ⟨rfl, h⟩ | ⟨rfl, h⟩ | ⟨rfl, h⟩ | ⟨rfl, h⟩ | ⟨rfl, h⟩ | ⟨rfl, h⟩ | ⟨rfl, h⟩ | ⟨rfl, h⟩ | ⟨rfl, h⟩ | ⟨rfl, h⟩ | ⟨rfl, h⟩ | ⟨rfl, h⟩ | ⟨rfl, h⟩ | ⟨rfl, h⟩ | ⟨rfl, h⟩ | ⟨rfl, h⟩
  all_goals simp [h]
  all_goals decide

lemma isLocalChar_toLowerChar (c : Char) : isLocalChar (toLowerChar c) = isLocalChar c := by
  rcases toLowerChar_cases c with h | ⟨rfl, h⟩ | ⟨rfl, h⟩ | ⟨rfl, h⟩ | ⟨rfl, h⟩ | ⟨rfl, h⟩ | ⟨rfl, h⟩ | ⟨rfl, h⟩ | ⟨rfl, h⟩ | ⟨rfl, h⟩ | ⟨rfl, h⟩ | ⟨rfl, h⟩ | ⟨rfl, h⟩ | ⟨rfl, h⟩ | ⟨rfl, h⟩ | ⟨rfl, h⟩ | ⟨rfl, h⟩ | ⟨rfl, h⟩ | ⟨rfl, h⟩ | ⟨rfl, h⟩ | ⟨rfl, h⟩ | ⟨rfl, h⟩ | ⟨rfl, h⟩ | ⟨rfl, h⟩ | ⟨rfl, h⟩ | ⟨rfl, h⟩ | ⟨rfl, h⟩
  all_goals simp [h]
  all_goals decide

lemma isDomainChar_toLowerChar (c : Char) : isDomainChar (toLowerChar c) = isDomainChar c := by
  rcases toLowerChar_cases c with h | ⟨rfl, h⟩ | ⟨rfl, h⟩ | ⟨rfl, h⟩ | ⟨rfl, h⟩ | ⟨rfl, h⟩ | ⟨rfl, h⟩ | ⟨rfl, h⟩ | ⟨rfl, h⟩ | ⟨rfl, h⟩ | ⟨rfl, h⟩ | ⟨rfl, h⟩ | ⟨rfl, h⟩ | ⟨rfl, h⟩ | ⟨rfl, h⟩ | ⟨rfl, h⟩ | ⟨rfl, h⟩ | ⟨rfl, h⟩ | ⟨rfl, h⟩ | ⟨rfl, h⟩ | ⟨rfl, h⟩ | ⟨rfl, h⟩ | ⟨rfl, h⟩ | ⟨rfl, h⟩ | ⟨rfl, h⟩ | ⟨rfl, h⟩ | ⟨rfl, h⟩
  all_goals simp [h]
  all_goals decide

lemma isAlpha_toLowerChar (c : Char) : (toLowerChar c).isAlpha = c.isAlpha := by
  rcases toLowerChar_cases c with h | ⟨rfl, h⟩ | ⟨rfl, h⟩ | ⟨rfl, h⟩ | ⟨rfl, h⟩ | ⟨rfl, h⟩ | ⟨rfl, h⟩ | ⟨rfl, h⟩ | ⟨rfl, h⟩ | ⟨rfl, h⟩ | ⟨rfl, h⟩ | ⟨rfl, h⟩ | ⟨rfl, h⟩ | ⟨rfl, h⟩ | ⟨rfl, h⟩ | ⟨rfl, h⟩ | ⟨rfl, h⟩ | ⟨rfl, h⟩ | ⟨rfl, h⟩ | ⟨rfl, h⟩ | ⟨rfl, h⟩ | ⟨rfl, h⟩ | ⟨rfl, h⟩ | ⟨rfl, h⟩ | ⟨rfl, h⟩ | ⟨rfl, h⟩ | ⟨rfl, h⟩
  all_goals simp [h]
  all_goals decide

lemma lowerStr_idem (l : List Char) : lowerStr (lowerStr l) = lowerStr l := by
  unfold lowerStr
  rw [List.map_map]
  exact List.map_eq_map_iff.mpr fun c _ => toLowerChar_idem c

lemma at_mem_lowerStr {l : List Char} (h : '@' ∈ l) : '@' ∈ lowerStr l := by
  unfold lowerStr
  have h2 : toLowerChar '@' ∈ l.map toLowerChar := List.mem_map_of_mem _ h
  simpa using h2

lemma trim_lowerStr (l : List Char) : trim (lowerStr l) = lowerStr (trim l) := by
  unfold trim lowerStr
  have hpred : (Char.isWhitespace ∘ toLowerChar) = Char.isWhitespace :=
    funext fun c => isWhitespace_toLowerChar c
  rw [List.dropWhile_map, hpred, List.reverse_map, List.dropWhile_map, hpred,
    List.reverse_map]

lemma dropWhile_eq_self_of_all (p : Char → Bool) (l : List Char)
    (h : ∀ c ∈ l, p c = false) : l.dropWhile p = l := by
  cases l with
  | nil => rfl
  | cons a t => simp [List.dropWhile_cons, h a (by simp)]

lemma trim_eq_self_of_no_ws {l : List Char}
    (h : ∀ c ∈ l, c.isWhitespace = false) : trim l = l := by
  unfold trim
  rw [dropWhile_eq_self_of_all _ _ h,
    dropWhile_eq_self_of_all _ _ fun c hc => h c (by rwa [List.mem_reverse] at hc),
    List.reverse_reverse]

lemma mem_of_mem_dropWhile {p : Char → Bool} {l : List Char} {c : Char}
    (h : c ∈ l.dropWhile p) : c ∈ l :=
  (List.dropWhile_sublist p).subset h

lemma isEmpty_map (f : Char → Char) (l : List Char) :
    (l.map f).isEmpty = l.isEmpty := by
  cases l <;> rfl

lemma dropWhile_ne_head (c : Char) (l : List Char) :
    l.dropWhile (fun x => x ≠ c) = [] ∨
    ∃ t, l.dropWhile (fun x => x ≠ c) = c :: t := by
  induction l with
  | nil => left; rfl
  | cons a t ih =>
      by_cases hac : a = c
      · right
        subst hac
        exact ⟨t, by simp [List.dropWhile_cons]⟩
      · simpa [List.dropWhile_cons, hac] using ih

lemma is_email_format_at_mem {l : List Char} (h : Pix.is_email_format l = true) :
    '@' ∈ l := by
  unfold Pix.is_email_format at h
  rcases dropWhile_ne_head '@' l with hd | ⟨t, hd⟩
  · rw [hd] at h
    simp at h
  · have hm : '@' ∈ l.dropWhile (fun x => x ≠ '@') := by
      rw [hd]
      simp
    exact mem_of_mem_dropWhile hm

lemma emailDomainOk_lowerStr (d : List Char) :
    emailDomainOk (d.map toLowerChar) = emailDomainOk d := by
  unfold emailDomainOk
  have hpred : ((fun c => decide (c ≠ '.')) ∘ toLowerChar) =
      fun c => decide (c ≠ '.') := by
    funext c
    simp only [Function.comp]
    exact decide_eq_decide.mpr (not_congr (toLowerChar_dot_iff c))
  have hdom : isDomainChar ∘ toLowerChar = isDomainChar :=
    funext fun c => isDomainChar_toLowerChar c
  have halpha : (Char.isAlpha ∘ toLowerChar) = Char.isAlpha :=
    funext fun c => isAlpha_toLowerChar c
  simp only [List.reverse_map, List.takeWhile_map, hpred, List.length_map,
    ← List.map_take, isEmpty_map, List.all_map, hdom, halpha]

lemma is_email_format_lowerStr (l : List Char) :
    Pix.is_email_format (lowerStr l) = Pix.is_email_format l := by
  unfold Pix.is_email_format lowerStr
  have hpred : ((fun c => decide (c ≠ '@')) ∘ toLowerChar) =
      fun c => decide (c ≠ '@') := by
    funext c
    simp only [Function.comp]
    exact decide_eq_decide.mpr (not_congr (toLowerChar_at_iff c))
  have hlocal : isLocalChar ∘ toLowerChar = isLocalChar :=
    funext fun c => isLocalChar_toLowerChar c
  rw [List.takeWhile_map, List.dropWhile_map, hpred]
  rcases dropWhile_ne_head '@' l with hd | ⟨t, hd⟩
  · rw [hd]
    simp
  · rw [hd]
    simp only [List.map_cons, show toLowerChar '@' = '@' from by decide]
    simp only [isEmpty_map, List.all_map, hlocal, emailDomainOk_lowerStr]

lemma random_key_core_structure {l : List Char} (h : Pix.random_key_core l = true) :
    l.length = 36 ∧ ∀ c ∈ l, isHexLower c = true ∨ c = '-' := by
  unfold Pix.random_key_core at h
  cases e1 : takeHex 8 l with
  | none => rw [e1] at h; simp at h
  | some r1 =>
  rw [e1] at h
  simp only [Option.some_bind] at h
  cases e2 : expectChar '-' r1 with
  | none => rw [e2] at h; simp at h
  | some r2 =>
  rw [e2] at h
  simp only [Option.some_bind] at h
  cases e3 : takeHex 4 r2 with
  | none => rw [e3] at h; simp at h
  | some r3 =>
  rw [e3] at h
  simp only [Option.some_bind] at h
  cases e4 : expectChar '-' r3 with
  | none => rw [e4] at h; simp at h
  | some r4 =>
  rw [e4] at h
  simp only [Option.some_bind] at h
  cases e5 : takeHex 4 r4 with
  | none => rw [e5] at h; simp at h
  | some r5 =>
  rw [e5] at h
  simp only [Option.some_bind] at h
  cases e6 : expectChar '-' r5 with
  | none => rw [e6] at h; simp at h
  | some r6 =>
  rw [e6] at h
  simp only [Option.some_bind] at h
  cases e7 : takeHex 4 r6 with
  | none => rw [e7] at h; simp at h
  | some r7 =>
  rw [e7] at h
  simp only [Option.some_bind] at h
  cases e8 : expectChar '-' r7 with
  | none => rw [e8] at h; simp at h
  | some r8 =>
  rw [e8] at h
  simp only [Option.some_bind] at h
  cases e9 : takeHex 12 r8 with
  | none => rw [e9] at h; simp at h
  | some r9 =>
  rw [e9] at h
  cases r9 with
  | cons a t => simp at h
  | nil =>
  obtain ⟨p1, hl1, hp1len, hp1hex⟩ := takeHex_some 8 l r1 e1
  have hr1 : r1 = '-' :: r2 := expectChar_some e2
  obtain ⟨p2, hl2, hp2len, hp2hex⟩ := takeHex_some 4 r2 r3 e3
  have hr3 : r3 = '-' :: r4 := expectChar_some e4
  obtain ⟨p3, hl3, hp3len, hp3hex⟩ := takeHex_some 4 r4 r5 e5
  have hr5 : r5 = '-' :: r6 := expectChar_some e6
  obtain ⟨p4, hl4, hp4len, hp4hex⟩ := takeHex_some 4 r6 r7 e7
  have hr7 : r7 = '-' :: r8 := expectChar_some e8
  obtain ⟨p5, hl5, hp5len, hp5hex⟩ := takeHex_some 12 r8 [] e9
  have hfull : l = p1 ++ '-' :: (p2 ++ '-' :: (p3 ++ '-' :: (p4 ++ '-' :: p5))) := by
    rw [hl1, hr1, hl2, hr3, hl3, hr5, hl4, hr7, hl5]
    simp
  constructor
  · have hlen := congrArg List.length hfull
    simp only [List.length_append, List.length_cons, hp1len, hp2len, hp3len,
      hp4len, hp5len] at hlen
    omega
  · intro c hc
    rw [hfull] at hc
    rcases List.mem_append.mp hc with hc | hc
    · exact Or.inl (hp1hex c hc)
    rcases List.mem_cons.mp hc with rfl | hc
    · exact Or.inr rfl
    rcases List.mem_append.mp hc with hc | hc
    · exact Or.inl (hp2hex c hc)
    rcases List.mem_cons.mp hc with rfl | hc
    · exact Or.inr rfl
    rcases List.mem_append.mp hc with hc | hc
    · exact Or.inl (hp3hex c hc)
    rcases List.mem_cons.mp hc with rfl | hc
    · exact Or.inr rfl
    rcases List.mem_append.mp hc with hc | hc
    · exact Or.inl (hp4hex c hc)
    rcases List.mem_cons.mp hc with rfl | hc
    · exact Or.inr rfl
    exact Or.inl (hp5hex c hc)

lemma filter_idem (p : Char → Bool) (l : List Char) :
    (l.filter p).filter p = l.filter p :=
  List.filter_eq_self.mpr fun _ ha => (List.mem_filter.mp ha).2

lemma whitespace_enum {c : Char} (h : c.isWhitespace = true) :
    c = ' ' ∨ c = '\t' ∨ c = '\r' ∨ c = '\n' := by
  have h2 : ((c = ' ' ∨ c = '\t') ∨ c = '\r') ∨ c = '\n' := by
    simpa [Char.isWhitespace] using h
  tauto

lemma isWhitespace_eq_false_of_isDigit {c : Char} (h : c.isDigit = true) :
    c.isWhitespace = false := by
  by_contra hw
  have hw' : c.isWhitespace = true := by simpa using hw
  rcases whitespace_enum hw' with rfl | rfl | rfl | rfl <;> exact absurd h (by decide)

lemma isWhitespace_eq_false_of_hex {c : Char}
    (h : isHexLower c = true ∨ c = '-') : c.isWhitespace = false := by
  by_contra hw
  have hw' : c.isWhitespace = true := by simpa using hw
  rcases whitespace_enum hw' with rfl | rfl | rfl | rfl <;>
    rcases h with h | h <;> exact absurd h (by decide)

/-- C7: every kind's `normalize` is idempotent — the three digit filters (CPF,
CNPJ, CEP), the phone filter that also keeps `'+'`, and the shape-dispatching
PIX normalizer. -/
theorem normalize_idempotent (s : List Char) :
    Cpf.normalize (Cpf.normalize s) = Cpf.normalize s
  ∧ Cnpj.normalize (Cnpj.normalize s) = Cnpj.normalize s
  ∧ Cep.normalize (Cep.normalize s) = Cep.normalize s
  ∧ Phone.normalize (Phone.normalize s) = Phone.normalize s
  ∧ Pix.normalize (Pix.normalize s) = Pix.normalize s := by
  refine ⟨filter_idem _ _, filter_idem _ _, filter_idem _ _, filter_idem _ _, ?_⟩
  set t := trim s with ht
  have htt : trim t = t := trim_idem s
  by_cases h1 : Pix.is_cpf_format t = true
  · -- CPF shape: the output is the 11-digit normalized form.
    have hout : Pix.normalize s = Cpf.normalize t := by
      unfold Pix.normalize
      rw [← ht, if_pos h1]
    have hdig : ∀ c ∈ Cpf.normalize t, c.isDigit = true :=
      fun c hc => mem_filter_digits_isDigit hc
    have hlen : (Cpf.normalize t).length = 11 := (is_cpf_format_structure h1).1
    have hws : trim (Cpf.normalize t) = Cpf.normalize t :=
      trim_eq_self_of_no_ws fun c hc => isWhitespace_eq_false_of_isDigit (hdig c hc)
    rw [hout]
    unfold Pix.normalize
    rw [hws, if_pos (is_cpf_format_of_digits hdig hlen)]
    exact filter_idem _ _
  · by_cases h2 : Pix.is_cnpj_format t = true
    · -- CNPJ shape: the output is the 14-digit normalized form.
      have hout : Pix.normalize s = Cnpj.normalize t := by
        unfold Pix.normalize
        rw [← ht, if_neg h1, if_pos h2]
      have hdig : ∀ c ∈ Cnpj.normalize t, c.isDigit = true :=
        fun c hc => mem_filter_digits_isDigit hc
      have hlen : (Cnpj.normalize t).length = 14 := (is_cnpj_format_structure h2).1
      have hws : trim (Cnpj.normalize t) = Cnpj.normalize t :=
        trim_eq_self_of_no_ws fun c hc => isWhitespace_eq_false_of_isDigit (hdig c hc)
      have hncpf : ¬ (Pix.is_cpf_format (Cnpj.normalize t) = true) := by
        intro hc
        have hc11 := (is_cpf_format_structure hc).1
        rw [List.filter_eq_self.mpr hdig] at hc11
        omega
      rw [hout]
      unfold Pix.normalize
      rw [hws, if_neg hncpf, if_pos (is_cnpj_format_of_digits hdig hlen)]
      exact filter_idem _ _
    · by_cases h3 : Pix.is_email_format t = true
      · -- Email shape: the output is the lowercased key.
        have hout : Pix.normalize s = lowerStr t := by
          unfold Pix.normalize
          rw [← ht, if_neg h1, if_neg h2, if_pos h3]
        have hat : '@' ∈ lowerStr t := at_mem_lowerStr (is_email_format_at_mem h3)
        have htrimout : trim (lowerStr t) = lowerStr t := by
          rw [trim_lowerStr, htt]
        have hncpf : ¬ (Pix.is_cpf_format (lowerStr t) = true) := by
          intro hc
          rcases (is_cpf_format_structure hc).2.2.2 '@' hat with h | h | h <;>
            exact absurd h (by decide)
        have hncnpj : ¬ (Pix.is_cnpj_format (lowerStr t) = true) := by
          intro hc
          rcases (is_cnpj_format_structure hc).2.2.2 '@' hat with h | h | h | h <;>
            exact absurd h (by decide)
        have hemail2 : Pix.is_email_format (lowerStr t) = true := by
          rw [is_email_format_lowerStr]
          exact h3
        rw [hout]
        unfold Pix.normalize
        rw [htrimout, if_neg hncpf, if_neg hncnpj, if_pos hemail2]
        exact lowerStr_idem t
      · by_cases h4 : Pix.is_random_key_format t = true
        · -- Random-key shape: the output is the lowercased key.
          have hout : Pix.normalize s = lowerStr t := by
            unfold Pix.normalize
            rw [← ht, if_neg h1, if_neg h2, if_neg h3, if_pos h4]
          have hcore : Pix.random_key_core (lowerStr t) = true := h4
          obtain ⟨hlen36, hcls⟩ := random_key_core_structure hcore
          have htrimout : trim (lowerStr t) = lowerStr t := by
            rw [trim_lowerStr, htt]
          have hncpf : ¬ (Pix.is_cpf_format (lowerStr t) = true) := by
            intro hc
            have := (is_cpf_format_structure hc).2.2.1
            omega
          have hncnpj : ¬ (Pix.is_cnpj_format (lowerStr t) = true) := by
            intro hc
            have := (is_cnpj_format_structure hc).2.2.1
            omega
          have hnemail : ¬ (Pix.is_email_format (lowerStr t) = true) := by
            intro hc
            rcases hcls '@' (is_email_format_at_mem hc) with h | h <;>
              exact absurd h (by decide)
          have hrand2 : Pix.is_random_key_format (lowerStr t) = true := by
            unfold Pix.is_random_key_format
            rw [lowerStr_idem]
            exact hcore
          rw [hout]
          unfold Pix.normalize
          rw [htrimout, if_neg hncpf, if_neg hncnpj, if_neg hnemail, if_pos hrand2]
          exact lowerStr_idem t
        · -- No recognizer matches: the output is the trimmed key itself.
          have hout : Pix.normalize s = t := by
            unfold Pix.normalize
            rw [← ht, if_neg h1, if_neg h2, if_neg h3, if_neg h4]
          rw [hout]
          unfold Pix.normalize
          rw [htt, if_neg h1, if_neg h2, if_neg h3, if_neg h4]

/-! C8 and C9. -/

lemma cpf_validate_ok_normalize {x v : List Char} (h : Cpf.validate x = .ok v) :
    v = Cpf.normalize x := by
  unfold Cpf.validate at h
  simp only [] at h
  split_ifs at h <;> simp_all

lemma cnpj_validate_ok_normalize {x v : List Char} (h : Cnpj.validate x = .ok v) :
    v = Cnpj.normalize x := by
  unfold Cnpj.validate at h
  simp only [] at h
  split_ifs at h <;> simp_all

/-- C8 as stated is false: a whitespace-padded phone key is accepted, but the
returned value is the trimmed key, not the input string unchanged. -/
theorem pix_phone_value_is_trimmed_not_input :
    Pix.validate_with_type " +5511987654321".data
      = .ok (.phone, "+5511987654321".data)
  ∧ "+5511987654321".data ≠ " +5511987654321".data :=
  ⟨by rfl, by decide⟩

/-- C8 (amended): for every input accepted by `validate_with_type`, the
returned value is canonicalized from the *trimmed* key according to the tag —
CPF/CNPJ digit-normalized, email lowercased, phone the trimmed input
unchanged, random-token lowercased. -/
theorem validate_with_type_canonical (s : List Char) (ty : Pix.PixKeyType)
    (v : List Char) (h : Pix.validate_with_type s = .ok (ty, v)) :
    (ty = .cpf → v = Cpf.normalize (trim s))
  ∧ (ty = .cnpj → v = Cnpj.normalize (trim s))
  ∧ (ty = .email → v = lowerStr (trim s))
  ∧ (ty = .phone → v = trim s)
  ∧ (ty = .random → v = lowerStr (trim s)) := by
  unfold Pix.validate_with_type at h
  simp only [] at h
  by_cases h1 : Pix.is_cpf_format (trim s) = true
  · rw [if_pos h1] at h
    cases hcv : Cpf.validate (trim s) with
    | ok n =>
        rw [hcv] at h
        simp only [Except.ok.injEq, Prod.mk.injEq] at h
        obtain ⟨hty, hv⟩ := h
        subst hty
        subst hv
        exact ⟨fun _ => cpf_validate_ok_normalize hcv, fun he => absurd he (by decide),
          fun he => absurd he (by decide), fun he => absurd he (by decide), fun he => absurd he (by decide)⟩
    | error e =>
        rw [hcv] at h
        simp at h
  · rw [if_neg h1] at h
    by_cases h2 : Pix.is_cnpj_format (trim s) = true
    · rw [if_pos h2] at h
      cases hcv : Cnpj.validate (trim s) with
      | ok n =>
          rw [hcv] at h
          simp only [Except.ok.injEq, Prod.mk.injEq] at h
          obtain ⟨hty, hv⟩ := h
          subst hty
          subst hv
          exact ⟨fun he => absurd he (by decide), fun _ => cnpj_validate_ok_normalize hcv,
            fun he => absurd he (by decide), fun he => absurd he (by decide), fun he => absurd he (by decide)⟩
      | error e =>
          rw [hcv] at h
          simp at h
    · rw [if_neg h2] at h
      by_cases h3 : Pix.is_email_format (trim s) = true
      · rw [if_pos h3] at h
        simp only [Except.ok.injEq, Prod.mk.injEq] at h
        obtain ⟨hty, hv⟩ := h
        subst hty
        subst hv
        exact ⟨fun he => absurd he (by decide), fun he => absurd he (by decide), fun _ => rfl,
          fun he => absurd he (by decide), fun he => absurd he (by decide)⟩
      · rw [if_neg h3] at h
        by_cases h4 : Pix.is_phone_format (trim s) = true
        · rw [if_pos h4] at h
          simp only [Except.ok.injEq, Prod.mk.injEq] at h
          obtain ⟨hty, hv⟩ := h
          subst hty
          subst hv
          exact ⟨fun he => absurd he (by decide), fun he => absurd he (by decide), fun he => absurd he (by decide),
            fun _ => rfl, fun he => absurd he (by decide)⟩
        · rw [if_neg h4] at h
          by_cases h5 : Pix.is_random_key_format (trim s) = true
          · rw [if_pos h5] at h
            simp only [Except.ok.injEq, Prod.mk.injEq] at h
            obtain ⟨hty, hv⟩ := h
            subst hty
            subst hv
            exact ⟨fun he => absurd he (by decide), fun he => absurd he (by decide), fun he => absurd he (by decide),
              fun he => absurd he (by decide), fun _ => rfl⟩
          · rw [if_neg h5] at h
            simp at h

/-- Witness for `validate_with_type_canonical` on the email key
`"User@Example.COM"` (accepted with tag `email`, value lowercased). -/
theorem validate_with_type_canonical_witness :
    "user@example.com".data = lowerStr (trim "User@Example.COM".data) :=
  (validate_with_type_canonical "User@Example.COM".data .email
    "user@example.com".data (by rfl)).2.2.1 rfl

/-- C9 as stated is false: `normalize` keeps every `'+'`, not only a leading
one — on `"1+2"` the inner `'+'` survives, where the claim demands `"12"`. -/
theorem phone_normalize_keeps_inner_plus :
    Phone.normalize "1+2".data = "1+2".data ∧ "1+2".data ≠ "12".data :=
  ⟨by rfl, by decide⟩

/-- C9 (amended): phone `normalize` retains exactly the decimal digits and
every `'+'` character, wherever it occurs, in order (a sublist of the input
with unchanged multiplicity), and removes every other character. -/
theorem phone_normalize_retains (s : List Char) :
    (Phone.normalize s).Sublist s
  ∧ (∀ c : Char, (c.isDigit = true ∨ c = '+') →
      (Phone.normalize s).count c = s.count c)
  ∧ (∀ c : Char, c.isDigit = false → c ≠ '+' →
      (Phone.normalize s).count c = 0) := by
  refine ⟨List.filter_sublist _, ?_, ?_⟩
  · intro c hc
    unfold Phone.normalize
    refine List.count_filter ?_
    rcases hc with hc | rfl
    · simp [hc]
    · simp
  · intro c h1 h2
    unfold Phone.normalize
    rw [List.count_eq_zero]
    intro hc
    have hmem := (List.mem_filter.mp hc).2
    simp [h1, h2] at hmem

/-- Witness for `phone_normalize_retains` at `"a1+2b"` and `'+'`. -/
theorem phone_normalize_retains_witness :
    (Phone.normalize "a1+2b".data).count '+' = "a1+2b".data.count '+' :=
  (phone_normalize_retains "a1+2b".data).2.1 '+' (Or.inr rfl)

end BrazilValidators
